import Mathlib

/-!
Cluster heartbeat state synchronisation client.

A shallow embedding of `sm_cluster_hbs_info_msg.cpp` (service management, cluster
heartbeat info messages) and theorems about it.

Conventions of the embedding:

* C arrays are unchecked index functions: `a[i]` in the source is `a i` here, for
  whatever index the source computes.  That the index stays inside the array is a
  separate statement, proved or refuted on its own.
* `unsigned short` and `unsigned char` values are natural numbers, C `int` values are
  integers.  Every sum the source forms from them stays far below `2 ^ 31`.
* Process-wide variables are fields of `HbsGlobals`, passed explicitly.
* A callback is an opaque function pointer; invoking it is recorded in a log.
-/

namespace SmClusterHbs

/-! ## Constants of headers that are not among the sources -/

/-- Modelled from the spec: the number of controller slots `N_CONTROLLERS`, which is 2
(declared in `sm_cluster_hbs_info_msg.h`, absent from the sources). -/
def max_controllers : Nat := 2

/-- Constants and sizes fixed by the heartbeat agent's wire header (`mtce_hbs_cluster_type`
and friends), which is not among the sources; they are parameters of the embedding. -/
structure HbsLayout where
  /-- Value of the constant `MTCE_HBS_NETWORKS`. -/
  MTCE_HBS_NETWORKS : Nat
  /-- Value of the constant `MTCE_HBS_HISTORY_ENTRIES`, the capacity of a record's circular array. -/
  MTCE_HBS_HISTORY_ENTRIES : Nat
  /-- Value of the constant `MTCE_HBS_MAX_HISTORY_ELEMENTS`, the number of record slots of a message. -/
  MTCE_HBS_MAX_HISTORY_ELEMENTS : Nat
  /-- Value of `size_of_msg_header`: the message without its record slots. -/
  size_of_msg_header : Nat
  /-- Value of `sizeof(mtce_hbs_cluster_history_type)`. -/
  size_of_history : Nat

/-! ## Data model -/

/-- Per-controller snapshot `SmClusterHbsInfoT`. -/
structure SmClusterHbsInfoT where
  storage0_responding : Bool
  sm_heartbeat_fail : Bool
  number_of_node_reachable : Int
  number_of_node_enabled : Int
deriving DecidableEq

/-- Cluster snapshot `SmClusterHbsStateT`; `controllers` has `max_controllers` slots. -/
structure SmClusterHbsStateT where
  storage0_enabled : Bool
  last_update : Int
  controllers : List SmClusterHbsInfoT
deriving DecidableEq

/-- Modelled from the spec: the default constructor of `SmClusterHbsInfoT` (in the absent
header) gives the all-zero snapshot. -/
def SmClusterHbsInfoT.zero : SmClusterHbsInfoT :=
  { storage0_responding := false, sm_heartbeat_fail := false,
    number_of_node_reachable := 0, number_of_node_enabled := 0 }

/-- Modelled from the spec: the default constructor of `SmClusterHbsStateT` (in the absent
header) gives "a fresh all-zero state". -/
def SmClusterHbsStateT.fresh : SmClusterHbsStateT :=
  { storage0_enabled := false, last_update := 0,
    controllers := List.replicate max_controllers SmClusterHbsInfoT.zero }

/-- Read of `state.controllers[i]`. -/
def SmClusterHbsStateT.ctrl (s : SmClusterHbsStateT) (i : Nat) : SmClusterHbsInfoT :=
  s.controllers.getD i SmClusterHbsInfoT.zero

/-- One slot of a record's circular array, `mtce_hbs_cluster_entry_type`. -/
structure mtce_hbs_cluster_entry_type where
  hosts_enabled : Nat
  hosts_responding : Nat
deriving DecidableEq

/-- One history record, `mtce_hbs_cluster_history_type`.  `entry` is the circular array,
read without a bounds check as C does: the slots are the indices
`0 .. MTCE_HBS_HISTORY_ENTRIES - 1`. -/
structure mtce_hbs_cluster_history_type where
  controller : Nat
  network : Nat
  sm_heartbeat_fail : Nat
  storage0_responding : Bool
  entries : Nat
  oldest_entry_index : Nat
  entry : Int → mtce_hbs_cluster_entry_type

/-- The fields of a received message, `mtce_hbs_cluster_type`, that the handler uses
(version, revision, bytes, reqid and period are only logged).  `history` is the array of
record slots. -/
structure mtce_hbs_cluster_type where
  histories : Nat
  storage0_enabled : Nat
  history : Nat → mtce_hbs_cluster_history_type

/-- A callback `cluster_hbs_query_ready_callback`, identified by its address. -/
abbrev Callback := Nat

/-- The process-wide variables the receive handler works on, and the log of the callbacks
invoked so far (oldest first). -/
structure HbsGlobals where
  _cluster_hbs_state_current : SmClusterHbsStateT
  _cluster_hbs_state_previous : SmClusterHbsStateT
  _callbacks : List Callback
  invoked : List Callback
deriving DecidableEq

/-- What one `recv` call of the handler yields: the byte count (negative on failure or
when nothing is queued), the buffer seen as a message, and the second read from the clock
while this message is handled.  The handler reads a header field only after it has checked
that the header was received, and record `i` only after it has checked that the datagram
holds `histories` records, so what it reads comes from this datagram and not from an
earlier one left in the buffer. -/
structure Datagram where
  bytes_read : Int
  msg : mtce_hbs_cluster_type
  tv_sec : Int

/-! ## Equality operators -/

/-- Source `operator==(const SmClusterHbsInfoT&, const SmClusterHbsInfoT&)`. -/
def SmClusterHbsInfoT.operator_eq (lhs rhs : SmClusterHbsInfoT) : Bool :=
  lhs.storage0_responding == rhs.storage0_responding &&
  lhs.sm_heartbeat_fail == rhs.sm_heartbeat_fail &&
  lhs.number_of_node_reachable == rhs.number_of_node_reachable

/-- Source `operator!=(const SmClusterHbsInfoT&, const SmClusterHbsInfoT&)`. -/
def SmClusterHbsInfoT.operator_ne (lhs rhs : SmClusterHbsInfoT) : Bool :=
  !(SmClusterHbsInfoT.operator_eq lhs rhs)

/-- The `for` loop of the state comparison over the controller indices still to visit:
the first pair of unequal controller entries ends it with `false`. -/
def controllers_loop (lhs rhs : SmClusterHbsStateT) : List Nat → Bool
  | [] => true
  | i :: rest =>
    if SmClusterHbsInfoT.operator_ne (lhs.ctrl i) (rhs.ctrl i) then false
    else controllers_loop lhs rhs rest

/-- Source `operator==(const SmClusterHbsStateT&, const SmClusterHbsStateT&)`. -/
def SmClusterHbsStateT.operator_eq (lhs rhs : SmClusterHbsStateT) : Bool :=
  if lhs.storage0_enabled != rhs.storage0_enabled then false
  else controllers_loop lhs rhs (List.range max_controllers)

/-- Source `operator!=(const SmClusterHbsStateT&, const SmClusterHbsStateT&)`. -/
def SmClusterHbsStateT.operator_ne (lhs rhs : SmClusterHbsStateT) : Bool :=
  !(SmClusterHbsStateT.operator_eq lhs rhs)

/-! ## Reduction of one history record -/

/-- The index `newest_entry_index` of `_process_cluster_hbs_history`: the operands are
promoted to `int`, and `%` truncates towards zero. -/
def newest_entry_index (L : HbsLayout) (history : mtce_hbs_cluster_history_type) : Int :=
  Int.tmod ((history.oldest_entry_index : Int) + (history.entries : Int) - 1)
    (L.MTCE_HBS_HISTORY_ENTRIES : Int)

/-- Source `SmClusterHbsInfoMsg::_process_cluster_hbs_history`: the returned flag, and
`state` as the call leaves it. -/
def _process_cluster_hbs_history (L : HbsLayout) (history : mtce_hbs_cluster_history_type)
    (state : SmClusterHbsStateT) : Bool × SmClusterHbsStateT :=
  if history.controller ≥ max_controllers then (false, state)
  else if L.MTCE_HBS_NETWORKS ≤ history.network then (false, state)
  else if L.MTCE_HBS_HISTORY_ENTRIES < history.entries then (false, state)
  else if L.MTCE_HBS_HISTORY_ENTRIES < history.oldest_entry_index then (false, state)
  else
    let entry := history.entry (newest_entry_index L history)
    let controller_state := state.ctrl history.controller
    let controller_state :=
      { controller_state with
        storage0_responding := history.storage0_responding,
        sm_heartbeat_fail := decide (history.sm_heartbeat_fail = 1) }
    let controller_state :=
      if (entry.hosts_responding : Int) > controller_state.number_of_node_reachable then
        { controller_state with
          number_of_node_reachable := (entry.hosts_responding : Int),
          number_of_node_enabled := (entry.hosts_enabled : Int) }
      else controller_state
    (true, { state with controllers := state.controllers.set history.controller controller_state })

/-- The `for` loop of the receive handler over the declared records: `none` when a record
is refused (the handler returns), else the state after the last record. -/
def process_histories (L : HbsLayout) :
    List mtce_hbs_cluster_history_type → SmClusterHbsStateT → Option SmClusterHbsStateT
  | [], state => some state
  | history :: rest, state =>
    match _process_cluster_hbs_history L history state with
    | (false, _) => none
    | (true, state1) => process_histories L rest state1

/-- The records a message declares: `msg.history[0] .. msg.history[msg.histories - 1]`. -/
def declared_histories (msg : mtce_hbs_cluster_type) : List mtce_hbs_cluster_history_type :=
  (List.range msg.histories).map msg.history

/-! ## The receive handler -/

/-- The first part of one pass of the handler's loop, from `recv` to the assignment of
`storage0_enabled`: the local `state` built from the message, or `none` where the handler
returns before it touches a process-wide variable. -/
def reduce_msg (L : HbsLayout) (d : Datagram) : Option SmClusterHbsStateT :=
  if d.bytes_read < 0 then none
  else if (L.size_of_msg_header : Int) > d.bytes_read then none
  else
    let state := SmClusterHbsStateT.fresh
    let folded :=
      if d.msg.histories > 0 then
        let expected_size : Int :=
          (L.size_of_history : Int) * (d.msg.histories : Int) + (L.size_of_msg_header : Int)
        if d.bytes_read ≠ expected_size then none
        else process_histories L (declared_histories d.msg) state
      else some state
    match folded with
    | none => none
    | some state =>
      some { state with last_update := d.tv_sec,
                        storage0_enabled := decide (d.msg.storage0_enabled ≠ 0) }

/-- The comparison with the current state: a differing state shifts current to previous
and becomes current. -/
def install_state (state : SmClusterHbsStateT) (g : HbsGlobals) : HbsGlobals :=
  if SmClusterHbsStateT.operator_ne state g._cluster_hbs_state_current then
    { g with _cluster_hbs_state_previous := g._cluster_hbs_state_current,
             _cluster_hbs_state_current := state }
  else g

/-- The loop `while(!_callbacks.empty())`: take the front callback, pop it, invoke it. -/
def drain_callbacks : List Callback → List Callback → List Callback × List Callback
  | [], log => ([], log)
  | callback :: rest, log => drain_callbacks rest (log ++ [callback])

/-- The callback loop on the process-wide variables. -/
def notify_callbacks (g : HbsGlobals) : HbsGlobals :=
  { g with _callbacks := (drain_callbacks g._callbacks g.invoked).1,
           invoked := (drain_callbacks g._callbacks g.invoked).2 }

/-- One pass of the handler's `while(true)` loop.  The flag is `true` when the pass ran to
its end (the message was applied and the loop goes on to the next `recv`) and `false`
when the handler returned inside the pass. -/
def receive_one (L : HbsLayout) (d : Datagram) (g : HbsGlobals) : Bool × HbsGlobals :=
  match reduce_msg L d with
  | none => (false, g)
  | some state => (true, notify_callbacks (install_state state g))

/-- Source `SmClusterHbsInfoMsg::_cluster_hbs_info_msg_received`, on the results of its
successive `recv` calls; when they run out `recv` reports that it would block and the
handler returns. -/
def _cluster_hbs_info_msg_received (L : HbsLayout) : List Datagram → HbsGlobals → HbsGlobals
  | [], g => g
  | d :: rest, g =>
    match receive_one L d g with
    | (false, g1) => g1
    | (true, g1) => _cluster_hbs_info_msg_received L rest g1

/-! ## Specification-side notions -/

/-- The per-record validation of the spec: controller id, network id, entry count and
oldest index are all within their bounds. -/
def history_valid (L : HbsLayout) (history : mtce_hbs_cluster_history_type) : Prop :=
  history.controller < max_controllers ∧ history.network < L.MTCE_HBS_NETWORKS ∧
  history.entries ≤ L.MTCE_HBS_HISTORY_ENTRIES ∧
  history.oldest_entry_index ≤ L.MTCE_HBS_HISTORY_ENTRIES

/-- The size checks of the spec: at least a header, and exactly header plus the declared
records when at least one record is declared. -/
def passes_size_checks (L : HbsLayout) (d : Datagram) : Prop :=
  (L.size_of_msg_header : Int) ≤ d.bytes_read ∧
  (0 < d.msg.histories →
    d.bytes_read = (L.size_of_msg_header : Int) + (d.msg.histories : Int) * (L.size_of_history : Int))

/-- The values at process start: both states fresh, no callback pending, none invoked. -/
def HbsGlobals.initial : HbsGlobals :=
  { _cluster_hbs_state_current := SmClusterHbsStateT.fresh,
    _cluster_hbs_state_previous := SmClusterHbsStateT.fresh,
    _callbacks := [], invoked := [] }

/-! ## Concrete inputs -/

/-- A layout with 2 networks, 20 entries per record, 4 record slots, a 14 byte header and
88 byte records. -/
def sample_layout : HbsLayout :=
  { MTCE_HBS_NETWORKS := 2, MTCE_HBS_HISTORY_ENTRIES := 20, MTCE_HBS_MAX_HISTORY_ELEMENTS := 4,
    size_of_msg_header := 14, size_of_history := 88 }

/-- A record for network 0 whose slots all hold the same pair of counts. -/
def sample_history (controller entries oldest responding enabled : Nat) :
    mtce_hbs_cluster_history_type :=
  { controller := controller, network := 0, sm_heartbeat_fail := 0, storage0_responding := false,
    entries := entries, oldest_entry_index := oldest,
    entry := fun _ => { hosts_enabled := enabled, hosts_responding := responding } }

/-- A message without records and with the given storage-0 flag. -/
def header_only_msg (storage0 : Nat) : mtce_hbs_cluster_type :=
  { histories := 0, storage0_enabled := storage0, history := fun _ => sample_history 0 0 0 0 0 }

/-- A message declaring `n` records, each a copy of `history`. -/
def uniform_msg (n : Nat) (history : mtce_hbs_cluster_history_type) : mtce_hbs_cluster_type :=
  { histories := n, storage0_enabled := 0, history := fun _ => history }

/-- Globals at process start with two callbacks queued, 1 before 2. -/
def queued_globals : HbsGlobals :=
  { HbsGlobals.initial with _callbacks := [1, 2] }

/-- A datagram of header plus one record whose only record names controller 2. -/
def bad_controller_datagram : Datagram :=
  { bytes_read := 102, msg := uniform_msg 1 (sample_history 2 1 0 5 4), tv_sec := 9 }

/-- A datagram of header plus one record that declares two records. -/
def short_datagram : Datagram :=
  { bytes_read := 102, msg := uniform_msg 2 (sample_history 0 1 0 5 4), tv_sec := 9 }

/-- A datagram one byte longer than the header that declares no record. -/
def padded_datagram : Datagram :=
  { bytes_read := 15, msg := header_only_msg 1, tv_sec := 9 }

/-- A header-only datagram with the storage-0 flag set. -/
def storage0_datagram : Datagram :=
  { bytes_read := 14, msg := header_only_msg 1, tv_sec := 9 }

/-- A header-only datagram with the storage-0 flag clear. -/
def plain_datagram : Datagram :=
  { bytes_read := 14, msg := header_only_msg 0, tv_sec := 9 }

/-- A record that passes validation with no entry yet: `entries = 0`, oldest index 0. -/
def empty_history : mtce_hbs_cluster_history_type := sample_history 0 0 0 0 0

/-- Code side: what `_process_cluster_hbs_history` reads from a record, at the index the
code computes, inside the array or not. -/
def entry_read (L : HbsLayout) (history : mtce_hbs_cluster_history_type) :
    mtce_hbs_cluster_entry_type :=
  history.entry (newest_entry_index L history)

/-- Code side: what the reduction reads from the records of controller `c`, in message
order. -/
def entries_read_of (L : HbsLayout) (c : Nat) (hs : List mtce_hbs_cluster_history_type) :
    List mtce_hbs_cluster_entry_type :=
  (hs.filter (fun h => decide (h.controller = c))).map (entry_read L)

/-- Spec side: the circular index of a record's current entry,
`(oldest_entry_index + entries - 1) mod HISTORY_CAPACITY`, a slot of the array. -/
def spec_newest_index (L : HbsLayout) (history : mtce_hbs_cluster_history_type) : Nat :=
  (history.oldest_entry_index + history.entries - 1) % L.MTCE_HBS_HISTORY_ENTRIES

/-- Spec side: the current entry of a record, the array slot at the circular index. -/
def spec_current_entry (L : HbsLayout) (history : mtce_hbs_cluster_history_type) :
    mtce_hbs_cluster_entry_type :=
  history.entry ((spec_newest_index L history : Nat) : Int)

/-- Spec side: the current entries of the records of controller `c`, in message order. -/
def spec_current_entries_of (L : HbsLayout) (c : Nat)
    (hs : List mtce_hbs_cluster_history_type) : List mtce_hbs_cluster_entry_type :=
  (hs.filter (fun h => decide (h.controller = c))).map (spec_current_entry L)

/-- A record for network 0 with one marked slot holding the given counts; every other
index, inside the array or not, holds 1000 responding and 1000 enabled hosts. -/
def slot_history (controller entries oldest : Nat) (slot : Int) (responding enabled : Nat) :
    mtce_hbs_cluster_history_type :=
  { controller := controller, network := 0, sm_heartbeat_fail := 0, storage0_responding := false,
    entries := entries, oldest_entry_index := oldest,
    entry := fun i =>
      if i = slot then { hosts_enabled := enabled, hosts_responding := responding }
      else { hosts_enabled := 1000, hosts_responding := 1000 } }

/-- A message of three records for controller 0 and one for controller 1.  The current
entries of the records for controller 0 are slot 0 (1 entry from slot 0), slot 1 (3
entries from slot 19, wrapping) and slot 4 (20 entries from slot 5), with reachable counts
3, 7, 5 and enabled counts 2, 6, 4; the record for controller 1 has 8 and 8 in slot 9. -/
def slotted_msg : mtce_hbs_cluster_type :=
  { histories := 4, storage0_enabled := 0,
    history := fun i =>
      match i with
      | 0 => slot_history 0 1 0 0 3 2
      | 1 => slot_history 0 3 19 1 7 6
      | 2 => slot_history 1 10 0 9 8 8
      | _ => slot_history 0 20 5 4 5 4 }

/-- The slotted message as received: header plus four records. -/
def slotted_datagram : Datagram :=
  { bytes_read := 366, msg := slotted_msg, tv_sec := 9 }

/-- A record without entries (`entries = 0`, oldest index 0) for controller 0 whose 20
array slots hold zeros; `outside` is what lies just before the array, where index -1
points. -/
def empty_history_with (outside : mtce_hbs_cluster_entry_type) :
    mtce_hbs_cluster_history_type :=
  { controller := 0, network := 0, sm_heartbeat_fail := 0, storage0_responding := false,
    entries := 0, oldest_entry_index := 0,
    entry := fun i =>
      if i = -1 then outside else { hosts_enabled := 0, hosts_responding := 0 } }

/-- A datagram of header plus one record, the record being empty. -/
def empty_record_datagram (outside : mtce_hbs_cluster_entry_type) : Datagram :=
  { bytes_read := 102, msg := uniform_msg 1 (empty_history_with outside), tv_sec := 9 }

/-- The maximum of `hosts_responding` over a list of entries, 0 for the empty list. -/
def max_responding : List mtce_hbs_cluster_entry_type → Nat
  | [] => 0
  | e :: es => max e.hosts_responding (max_responding es)

/-- The `hosts_enabled` of the first entry whose `hosts_responding` is the maximum. -/
def first_enabled_at_max (es : List mtce_hbs_cluster_entry_type) : Nat :=
  match es.find? (fun e => decide (e.hosts_responding = max_responding es)) with
  | some e => e.hosts_enabled
  | none => 0

/-- The enabled count the spec pairs with the maximum: that of the first entry attaining
it, and 0 when the maximum is 0. -/
def enabled_at_max (es : List mtce_hbs_cluster_entry_type) : Nat :=
  if max_responding es = 0 then 0 else first_enabled_at_max es

/-- The pair (reachable, enabled) of a controller snapshot. -/
def SmClusterHbsInfoT.counts (s : SmClusterHbsInfoT) : Int × Int :=
  (s.number_of_node_reachable, s.number_of_node_enabled)

/-- The comparison and joint update of the counts in `_process_cluster_hbs_history`. -/
def fold_entry (acc : Int × Int) (e : mtce_hbs_cluster_entry_type) : Int × Int :=
  if (e.hosts_responding : Int) > acc.1 then ((e.hosts_responding : Int), (e.hosts_enabled : Int))
  else acc


/-! ## The query side: C library functions -/

/-- C `isspace` in the C locale: space, and the control characters 9 to 13. -/
def isspace (c : Char) : Bool :=
  decide (c.toNat = 32) || (decide (9 ≤ c.toNat) && decide (c.toNat ≤ 13))

/-- C `isdigit`: the characters `0` to `9`. -/
def isdigit (c : Char) : Bool :=
  decide (48 ≤ c.toNat) && decide (c.toNat ≤ 57)

/-- The value of the leading run of decimal digits of a string, continuing from `acc`. -/
def digits_value : List Char → Nat → Nat
  | [], acc => acc
  | c :: cs, acc => if isdigit c then digits_value cs (acc * 10 + (c.toNat - 48)) else acc

/-- The number a string holds after its leading white space: an optional sign (`-` is
character 45, `+` is 43) and the leading run of digits. -/
def signed_value : List Char → Int
  | [] => 0
  | c :: cs =>
    if c.toNat = 45 then -((digits_value cs 0 : Nat) : Int)
    else if c.toNat = 43 then ((digits_value cs 0 : Nat) : Int)
    else ((digits_value (c :: cs) 0 : Nat) : Int)

/-- The number a string given by its characters before the terminating NUL starts with,
as the C conversions read it: leading white space is skipped, then an optional sign and
the leading digits are read, and anything else ends the number; a string without digits
there gives 0.  This is the exact value, of any size. -/
def decimal_value : List Char → Int
  | [] => 0
  | c :: cs => if isspace c then decimal_value cs else signed_value (c :: cs)

/-- C `strtol(s, NULL, 10)` with a 64-bit `long`: the number the string starts with, or
`LONG_MAX` or `LONG_MIN` when it lies beyond them. -/
def strtol (s : List Char) : Int :=
  if decimal_value s > 9223372036854775807 then 9223372036854775807
  else if decimal_value s < -9223372036854775808 then -9223372036854775808
  else decimal_value s

/-- The conversion of a `long` to a 32-bit `int`: the value modulo `2 ^ 32`, taken in
`-2 ^ 31 .. 2 ^ 31 - 1`. -/
def int_of_long (v : Int) : Int :=
  (v + 2147483648) % 4294967296 - 2147483648

/-- C `atoi` as the C library computes it, `(int) strtol(s, NULL, 10)`: the number the
string starts with when it fits an `int`, and its conversion to 32 bits otherwise (C
itself leaves that case undefined). -/
def atoi (s : List Char) : Int :=
  int_of_long (strtol s)

/-- C `strncmp` on two strings given by their characters before the terminating NUL: the
difference of the first pair of differing characters among the first `n`, the terminator
counting as character 0, and 0 when there is none. -/
def strncmp : List Char → List Char → Nat → Int
  | _, _, 0 => 0
  | [], [], _ + 1 => 0
  | [], b :: _, _ + 1 => 0 - (b.toNat : Int)
  | a :: _, [], _ + 1 => (a.toNat : Int)
  | a :: as, b :: bs, n + 1 =>
    if a = b then strncmp as bs n else (a.toNat : Int) - (b.toNat : Int)

/-! ## The query side: data model -/

/-- Result type `SmErrorT`, with the two values this module returns. -/
inductive SmErrorT where
  | SM_OKAY
  | SM_FAILED
deriving DecidableEq

/-- Constants of `sm_limits.h` and `sm_types.h`, which are not among the sources; they are
parameters of the embedding. -/
structure SmLimits where
  /-- Value of the constant `SM_NODE_NAME_MAX_CHAR`, the size of a node name buffer. -/
  SM_NODE_NAME_MAX_CHAR : Nat
  /-- Value of the string constant `SM_NODE_CONTROLLER_0_NAME`. -/
  SM_NODE_CONTROLLER_0_NAME : List Char

/-- The static members of `SmClusterHbsInfoMsg`: those of the receive handler, the socket,
the controller indices, the two configured port strings and the single-flight latch; and
the log of the `sendto` calls made so far, each by the request id it carried. -/
structure SmClusterHbsInfoMsg extends HbsGlobals where
  _sock : Int
  this_controller_index : Int
  peer_controller_index : Int
  server_port : List Char
  client_port : List Char
  _sending_query : Bool
  sendto_calls : List Nat
deriving DecidableEq

/-- The static initialisers of the members: no socket, no index, empty port strings, latch
clear. -/
def SmClusterHbsInfoMsg.start : SmClusterHbsInfoMsg :=
  { HbsGlobals.initial with
    _sock := -1, this_controller_index := -1, peer_controller_index := -1,
    server_port := [], client_port := [], _sending_query := false, sendto_calls := [] }

/-- What the environment answers during one call of `cluster_hbs_info_query`: the
`unsigned short` found at `&ts.tv_nsec` (`none` when `clock_gettime` fails), and whether
`sendto` succeeds. -/
structure QueryEnv where
  clock : Option Nat
  sendto_ok : Bool

/-- What the environment answers during `open_socket`. -/
structure SocketEnv where
  /-- Whether `getaddrinfo` resolves the service string it is given (a port number or a
  service name) on the loopback address. -/
  getaddrinfo : List Char → Bool
  /-- Result of `socket`. -/
  socket_fd : Int
  /-- Result of `fcntl(F_GETFL)`. -/
  getfl : Int
  /-- Result of `fcntl(F_SETFL)`. -/
  setfl : Int
  /-- Result of `bind`. -/
  bind_result : Int
  /-- Result of `sm_selobj_register`. -/
  selobj_register : SmErrorT

/-- What the environment answers during the initialisation of the module. -/
structure InitEnv where
  /-- Result of `sm_mutex_initialize`. -/
  mutex_result : SmErrorT
  /-- The name `gethostname` puts in the buffer, `none` when it fails. -/
  hostname : Option (List Char)
  /-- The value `sm_configuration_table_get` finds for the server port key. -/
  cfg_server_port : Option (List Char)
  /-- The value `sm_configuration_table_get` finds for the client port key. -/
  cfg_client_port : Option (List Char)
  /-- The answers to `open_socket`, and of `getaddrinfo` in `set_address`. -/
  socket_env : SocketEnv

/-! ## The query side: operations -/

/-- Source `sm_node_utils_get_hostname`: `none` for `SM_FAILED`, else `SM_OKAY` with the
name copied into `node_name` by `snprintf`, which keeps at most
`SM_NODE_NAME_MAX_CHAR - 1` characters. -/
def sm_node_utils_get_hostname (K : SmLimits) (gethostname : Option (List Char)) :
    Option (List Char) :=
  match gethostname with
  | none => none
  | some hostname => some (hostname.take (K.SM_NODE_NAME_MAX_CHAR - 1))

/-- Source `SmClusterHbsInfoMsg::get_controller_index`; `sizeof` of the name constant
counts its terminator. -/
def get_controller_index (K : SmLimits) (gethostname : Option (List Char))
    (m : SmClusterHbsInfoMsg) : SmErrorT × SmClusterHbsInfoMsg :=
  match sm_node_utils_get_hostname K gethostname with
  | none => (SmErrorT.SM_FAILED, m)
  | some host_name =>
    if 0 = strncmp K.SM_NODE_CONTROLLER_0_NAME host_name
        (K.SM_NODE_CONTROLLER_0_NAME.length + 1) then
      (SmErrorT.SM_OKAY, { m with this_controller_index := 0, peer_controller_index := 1 })
    else
      (SmErrorT.SM_OKAY, { m with this_controller_index := 1, peer_controller_index := 0 })

/-- Source `SmClusterHbsInfoMsg::_get_address`: the address of the static `sock_addr`,
which is never null. -/
def _get_address : Option Unit := some ()

/-- The request id chosen in `cluster_hbs_info_query`: 0 for a pulse, 1 when the clock
cannot be read, else `(*v) % 0xFFFE + 1` stored in an `unsigned short`. -/
def request_id (alive_pulse : Bool) (clock : Option Nat) : Nat :=
  if alive_pulse then 0
  else
    match clock with
    | none => 1
    | some v => (v % 0xFFFE + 1) % 65536

/-- Source `SmClusterHbsInfoMsg::cluster_hbs_info_query`; `callback` is `none` for a null
callback.  `test_and_set` returns the latch and sets it. -/
def cluster_hbs_info_query (callback : Option Callback) (env : QueryEnv)
    (m : SmClusterHbsInfoMsg) : Bool × SmClusterHbsInfoMsg :=
  let alive_pulse := callback.isNone
  let port := atoi m.server_port
  if 0 > port then (false, m)
  else
    let already_sending := m._sending_query
    let m := { m with _sending_query := true }
    if already_sending && alive_pulse then (true, m)
    else
      let m := { m with _sending_query := true }
      let reqid := request_id alive_pulse env.clock
      match _get_address with
      | none => (false, { m with _sending_query := false })
      | some _ =>
        let m := { m with sendto_calls := m.sendto_calls ++ [reqid] }
        if ¬ env.sendto_ok then (false, { m with _sending_query := false })
        else
          let m :=
            match callback with
            | some cb => { m with _callbacks := m._callbacks ++ [cb] }
            | none => m
          (true, { m with _sending_query := false })

/-- Source `SmClusterHbsInfoMsg::send_alive_pulse`. -/
def send_alive_pulse (env : QueryEnv) (m : SmClusterHbsInfoMsg) : Bool × SmClusterHbsInfoMsg :=
  cluster_hbs_info_query none env m

/-- Source `SmClusterHbsInfoMsg::open_socket`. -/
def open_socket (env : SocketEnv) (m : SmClusterHbsInfoMsg) : SmErrorT × SmClusterHbsInfoMsg :=
  let port := atoi m.server_port
  if 0 > port then (SmErrorT.SM_FAILED, m)
  else if ¬ env.getaddrinfo m.client_port then (SmErrorT.SM_FAILED, m)
  else if 0 > env.socket_fd then (SmErrorT.SM_FAILED, m)
  else if 0 > env.getfl then (SmErrorT.SM_FAILED, m)
  else if 0 > env.setfl then (SmErrorT.SM_FAILED, m)
  else if 0 > env.bind_result then (SmErrorT.SM_FAILED, m)
  else if SmErrorT.SM_OKAY ≠ env.selobj_register then (SmErrorT.SM_FAILED, m)
  else (SmErrorT.SM_OKAY, { m with _sock := env.socket_fd })

/-- Source `SmClusterHbsInfoMsg::set_address`: `getaddrinfo` on the server port string
(the address it stores is not modelled). -/
def set_address (env : SocketEnv) (m : SmClusterHbsInfoMsg) : SmErrorT :=
  if ¬ env.getaddrinfo m.server_port then SmErrorT.SM_FAILED else SmErrorT.SM_OKAY

/-- Source `SmClusterHbsInfoMsg::initialize`. -/
def SmClusterHbsInfoMsg_initialize (K : SmLimits) (env : InitEnv) (m : SmClusterHbsInfoMsg) :
    SmErrorT × SmClusterHbsInfoMsg :=
  if env.mutex_result ≠ SmErrorT.SM_OKAY then (SmErrorT.SM_FAILED, m)
  else
    match get_controller_index K env.hostname m with
    | (SmErrorT.SM_FAILED, m) => (SmErrorT.SM_FAILED, m)
    | (SmErrorT.SM_OKAY, m) =>
      match env.cfg_server_port with
      | none => (SmErrorT.SM_FAILED, m)
      | some value =>
        let m := { m with server_port := value }
        if 0 > atoi m.server_port then (SmErrorT.SM_FAILED, m)
        else
          match env.cfg_client_port with
          | none => (SmErrorT.SM_FAILED, m)
          | some value =>
            let m := { m with client_port := value }
            if 0 > atoi m.client_port then (SmErrorT.SM_FAILED, m)
            else
              match open_socket env.socket_env m with
              | (SmErrorT.SM_FAILED, m) => (SmErrorT.SM_FAILED, m)
              | (SmErrorT.SM_OKAY, m) =>
                if SmErrorT.SM_OKAY ≠ set_address env.socket_env m then (SmErrorT.SM_FAILED, m)
                else (SmErrorT.SM_OKAY, m)

/-! ## The query side: concrete inputs -/

/-- The members at process start with the latch set by a send in progress. -/
def latched_members : SmClusterHbsInfoMsg :=
  { SmClusterHbsInfoMsg.start with _sending_query := true }

/-- The members at process start with the server port configured as the string -1. -/
def negative_port_members : SmClusterHbsInfoMsg :=
  { SmClusterHbsInfoMsg.start with server_port := ['-', '1'] }

/-- The members at process start with callback 1 queued. -/
def one_queued_members : SmClusterHbsInfoMsg :=
  { SmClusterHbsInfoMsg.start with _callbacks := [1] }

/-- An environment where the clock sample is 70000 modulo 65536, that is 4464, and
`sendto` succeeds. -/
def sending_env : QueryEnv := { clock := some 4464, sendto_ok := true }

/-- An environment where `sendto` fails. -/
def failing_env : QueryEnv := { clock := some 4464, sendto_ok := false }

/-! ## More specification-side notions and concrete inputs -/

/-- The last record of controller `c` in message order, if there is one. -/
def last_record_of (c : Nat) (hs : List mtce_hbs_cluster_history_type) :
    Option mtce_hbs_cluster_history_type :=
  (hs.filter (fun h => decide (h.controller = c))).getLast?

/-- The pair (storage0_responding, sm_heartbeat_fail) of a controller snapshot. -/
def SmClusterHbsInfoT.flags (s : SmClusterHbsInfoT) : Bool × Bool :=
  (s.storage0_responding, s.sm_heartbeat_fail)

/-- The pair of flags `_process_cluster_hbs_history` takes from a record. -/
def record_flags (history : mtce_hbs_cluster_history_type) : Bool × Bool :=
  (history.storage0_responding, decide (history.sm_heartbeat_fail = 1))

/-- A layout whose records hold 15 entries (60 bytes of entries after 8 bytes of fields). -/
def capacity15_layout : HbsLayout :=
  { MTCE_HBS_NETWORKS := 2, MTCE_HBS_HISTORY_ENTRIES := 15, MTCE_HBS_MAX_HISTORY_ELEMENTS := 4,
    size_of_msg_header := 14, size_of_history := 68 }

/-- A record with 3 entries whose oldest entry is in slot 14; slot 1 holds 9 responding
and 6 enabled hosts, every other slot holds zeros. -/
def wrapping_history : mtce_hbs_cluster_history_type :=
  { controller := 0, network := 0, sm_heartbeat_fail := 0, storage0_responding := false,
    entries := 3, oldest_entry_index := 14,
    entry := fun i =>
      if i = 1 then { hosts_enabled := 6, hosts_responding := 9 }
      else { hosts_enabled := 0, hosts_responding := 0 } }

/-- A record for controller 0 with the two flags given and one entry of zeros. -/
def flag_history (storage0 : Bool) (heartbeat_fail : Nat) : mtce_hbs_cluster_history_type :=
  { sample_history 0 1 0 0 0 with
    storage0_responding := storage0, sm_heartbeat_fail := heartbeat_fail }

/-- A message of two records for controller 0: the first says storage-0 responds and the
heartbeat failed, the second says neither. -/
def two_flag_msg : mtce_hbs_cluster_type :=
  { histories := 2, storage0_enabled := 0,
    history := fun i =>
      match i with
      | 0 => flag_history true 1
      | _ => flag_history false 0 }

/-- The two-flag message as received: header plus two records. -/
def two_flag_datagram : Datagram :=
  { bytes_read := 190, msg := two_flag_msg, tv_sec := 9 }

/-- Limits with 32 byte name buffers and the controller-0 name `controller-0`. -/
def sample_limits : SmLimits :=
  { SM_NODE_NAME_MAX_CHAR := 32,
    SM_NODE_CONTROLLER_0_NAME := ['c', 'o', 'n', 't', 'r', 'o', 'l', 'l', 'e', 'r', '-', '0'] }

/-- The host name `controller-01`, which starts with the controller-0 name. -/
def longer_hostname : List Char :=
  ['c', 'o', 'n', 't', 'r', 'o', 'l', 'l', 'e', 'r', '-', '0', '1']

/-- A `getaddrinfo` that knows no service names: it resolves exactly the non-empty strings
of decimal digits. -/
def numeric_service (s : List Char) : Bool :=
  decide (s ≠ []) && s.all isdigit

/-- An environment in which `getaddrinfo` resolves port numbers and no service name, and
every other step of `open_socket` succeeds, giving descriptor 5. -/
def good_socket_env : SocketEnv :=
  { getaddrinfo := numeric_service, socket_fd := 5, getfl := 2, setfl := 0, bind_result := 0,
    selobj_register := SmErrorT.SM_OKAY }

/-- An environment with the two port strings configured as given, in which `getaddrinfo`
resolves port numbers and no service name and every other step of the initialisation
succeeds. -/
def good_init_env (server client : List Char) : InitEnv :=
  { mutex_result := SmErrorT.SM_OKAY, hostname := some sample_limits.SM_NODE_CONTROLLER_0_NAME,
    cfg_server_port := some server, cfg_client_port := some client,
    socket_env := good_socket_env }

/-- The port string 2223. -/
def port_2223 : List Char := ['2', '2', '2', '3']

/-- The members at process start with the server port configured as the non-numeric
string `abc` and the client port as 2223. -/
def abc_port_members : SmClusterHbsInfoMsg :=
  { SmClusterHbsInfoMsg.start with server_port := ['a', 'b', 'c'], client_port := port_2223 }

/-- The states the members can be in.  They start from their static initialisers; the
initialisation runs from there, before the periodic sender is registered; afterwards
calls of `cluster_hbs_info_query` return, the receive handler handles datagrams, and a
call of `cluster_hbs_info_query` on another thread can be in flight: it has passed the
port check and set the latch, it may have made its `sendto` call and queued its
callback, and it has not yet cleared the latch. -/
inductive Reachable (K : SmLimits) (L : HbsLayout) : SmClusterHbsInfoMsg → Prop where
  | start : Reachable K L SmClusterHbsInfoMsg.start
  | initialized (env : InitEnv) :
      Reachable K L ( SmClusterHbsInfoMsg_initialize K env SmClusterHbsInfoMsg.start).2
  | query (callback : Option Callback) (env : QueryEnv) (m : SmClusterHbsInfoMsg) :
      Reachable K L m → Reachable K L (cluster_hbs_info_query callback env m).2
  | in_flight (m : SmClusterHbsInfoMsg) :
      Reachable K L m → 0 ≤ atoi m.server_port →
      Reachable K L { m with _sending_query := true }
  | in_flight_sent (reqid : Nat) (m : SmClusterHbsInfoMsg) :
      Reachable K L m → m._sending_query = true →
      Reachable K L { m with sendto_calls := m.sendto_calls ++ [reqid] }
  | in_flight_queued (cb : Callback) (m : SmClusterHbsInfoMsg) :
      Reachable K L m → m._sending_query = true →
      Reachable K L { m with _callbacks := m._callbacks ++ [cb] }
  | received (d : Datagram) (m : SmClusterHbsInfoMsg) :
      Reachable K L m →
      Reachable K L { m with toHbsGlobals := (receive_one L d m.toHbsGlobals).2 }

/-- The state the spec gives a header-only message: every controller entry zero, the
storage-0 flag from the header, stamped with the time of receipt. -/
def header_only_state (d : Datagram) : SmClusterHbsStateT :=
  { storage0_enabled := decide (d.msg.storage0_enabled ≠ 0), last_update := d.tv_sec,
    controllers := List.replicate max_controllers SmClusterHbsInfoT.zero }

/-! ## Runs of the receive handler -/

/-- Successive wake-ups of the receive handler: each wake-up runs
`_cluster_hbs_info_msg_received` on the results of its `recv` calls. -/
def handle_wakeups (L : HbsLayout) (wakeups : List (List Datagram)) (g : HbsGlobals) :
    HbsGlobals :=
  wakeups.foldl (fun g1 ds => _cluster_hbs_info_msg_received L ds g1) g

/-- Successive datagrams, each taken through one pass of the handler's loop. -/
def receive_each (L : HbsLayout) (ds : List Datagram) (g : HbsGlobals) : HbsGlobals :=
  ds.foldl (fun g1 d => (receive_one L d g1).2) g

/-- The invariant of the pair of states: both are still the fresh state of process start,
or previous does not compare equal to current. -/
def previous_differs_or_initial (g : HbsGlobals) : Prop :=
  (g._cluster_hbs_state_current = SmClusterHbsStateT.fresh ∧
    g._cluster_hbs_state_previous = SmClusterHbsStateT.fresh) ∨
  SmClusterHbsStateT.operator_eq g._cluster_hbs_state_previous g._cluster_hbs_state_current =
    false

/-! ## Equality operators: lemmas -/

theorem info_operator_eq_iff (lhs rhs : SmClusterHbsInfoT) :
    SmClusterHbsInfoT.operator_eq lhs rhs = true ↔
      lhs.storage0_responding = rhs.storage0_responding ∧
      lhs.sm_heartbeat_fail = rhs.sm_heartbeat_fail ∧
      lhs.number_of_node_reachable = rhs.number_of_node_reachable := by
  simp [SmClusterHbsInfoT.operator_eq, and_assoc]

theorem info_operator_eq_refl (a : SmClusterHbsInfoT) :
    SmClusterHbsInfoT.operator_eq a a = true := by
  simp [SmClusterHbsInfoT.operator_eq]

theorem controllers_loop_iff (lhs rhs : SmClusterHbsStateT) (idx : List Nat) :
    controllers_loop lhs rhs idx = true ↔
      ∀ i, i ∈ idx → SmClusterHbsInfoT.operator_eq (lhs.ctrl i) (rhs.ctrl i) = true := by
  induction idx with
  | nil => simp [controllers_loop]
  | cons i rest ih =>
    simp only [controllers_loop, SmClusterHbsInfoT.operator_ne, List.mem_cons, forall_eq_or_imp]
    by_cases h : SmClusterHbsInfoT.operator_eq (lhs.ctrl i) (rhs.ctrl i) = true
    · simp [h, ih]
    · simp [h]

theorem state_operator_eq_iff (lhs rhs : SmClusterHbsStateT) :
    SmClusterHbsStateT.operator_eq lhs rhs = true ↔
      lhs.storage0_enabled = rhs.storage0_enabled ∧
      ∀ i, i < max_controllers →
        SmClusterHbsInfoT.operator_eq (lhs.ctrl i) (rhs.ctrl i) = true := by
  unfold SmClusterHbsStateT.operator_eq
  by_cases h : lhs.storage0_enabled = rhs.storage0_enabled
  · simp [h, controllers_loop_iff]
  · simp [h]

theorem state_operator_eq_last_update (lhs rhs : SmClusterHbsStateT) (t u : Int) :
    SmClusterHbsStateT.operator_eq { lhs with last_update := t } { rhs with last_update := u } =
      SmClusterHbsStateT.operator_eq lhs rhs := by
  rw [Bool.eq_iff_iff, state_operator_eq_iff, state_operator_eq_iff]
  simp [SmClusterHbsStateT.ctrl]

theorem state_operator_eq_refl (s : SmClusterHbsStateT) :
    SmClusterHbsStateT.operator_eq s s = true := by
  rw [state_operator_eq_iff]
  exact ⟨rfl, fun i _ => info_operator_eq_refl _⟩

/-! ## The callback loop: lemmas -/

theorem drain_callbacks_eq (queue log : List Callback) :
    drain_callbacks queue log = ([], log ++ queue) := by
  induction queue generalizing log with
  | nil => simp [drain_callbacks]
  | cons cb rest ih => simp [drain_callbacks, ih]

theorem notify_callbacks_eq (g : HbsGlobals) :
    notify_callbacks g = { g with _callbacks := [], invoked := g.invoked ++ g._callbacks } := by
  simp [notify_callbacks, drain_callbacks_eq]

/-! ## Record validation: lemmas -/

theorem process_history_flag (L : HbsLayout) (history : mtce_hbs_cluster_history_type)
    (state : SmClusterHbsStateT) :
    (_process_cluster_hbs_history L history state).1 = true ↔ history_valid L history := by
  unfold _process_cluster_hbs_history history_valid
  by_cases h1 : history.controller ≥ max_controllers
  · simp only [h1, if_true]; constructor
    · intro h; exact absurd h (by simp)
    · intro h; omega
  by_cases h2 : L.MTCE_HBS_NETWORKS ≤ history.network
  · simp only [h1, h2, if_true, if_false]; constructor
    · intro h; exact absurd h (by simp)
    · intro h; omega
  by_cases h3 : L.MTCE_HBS_HISTORY_ENTRIES < history.entries
  · simp only [h1, h2, h3, if_true, if_false]; constructor
    · intro h; exact absurd h (by simp)
    · intro h; omega
  by_cases h4 : L.MTCE_HBS_HISTORY_ENTRIES < history.oldest_entry_index
  · simp only [h1, h2, h3, h4, if_true, if_false]; constructor
    · intro h; exact absurd h (by simp)
    · intro h; omega
  · simp only [h1, h2, h3, h4, if_false]
    constructor
    · intro _; omega
    · intro _; trivial

theorem process_histories_isSome (L : HbsLayout) (hs : List mtce_hbs_cluster_history_type)
    (state : SmClusterHbsStateT) :
    (process_histories L hs state).isSome = true ↔ ∀ h, h ∈ hs → history_valid L h := by
  induction hs generalizing state with
  | nil => simp [process_histories]
  | cons h rest ih =>
    have hf := process_history_flag L h state
    simp only [process_histories, List.mem_cons, forall_eq_or_imp]
    rcases hp : _process_cluster_hbs_history L h state with ⟨flag, state1⟩
    rw [hp] at hf
    cases flag with
    | false =>
      simp only [Option.isSome_none]
      constructor
      · intro hx; exact absurd hx (by simp)
      · intro hx; exact absurd (hf.mpr hx.1) (by simp)
    | true =>
      simp only [ih]
      constructor
      · intro hx; exact ⟨hf.mp rfl, hx⟩
      · intro hx; exact hx.2

theorem declared_histories_mem (msg : mtce_hbs_cluster_type) (P : mtce_hbs_cluster_history_type → Prop) :
    (∀ h, h ∈ declared_histories msg → P h) ↔ ∀ i, i < msg.histories → P (msg.history i) := by
  simp [declared_histories]

theorem first_enabled_at_max_cons (x : mtce_hbs_cluster_entry_type)
    (xs : List mtce_hbs_cluster_entry_type) :
    first_enabled_at_max (x :: xs) =
      if max_responding xs ≤ x.hosts_responding then x.hosts_enabled
      else first_enabled_at_max xs := by
  unfold first_enabled_at_max
  simp only [List.find?_cons, max_responding]
  by_cases h : max_responding xs ≤ x.hosts_responding
  · have hm : max x.hosts_responding (max_responding xs) = x.hosts_responding := by omega
    simp [h, hm]
  · have hm : max x.hosts_responding (max_responding xs) = max_responding xs := by omega
    have hne : ¬ x.hosts_responding = max_responding xs := by omega
    simp [h, hm, hne]

theorem foldl_fold_entry (es : List mtce_hbs_cluster_entry_type) (r e : Int) (hr : 0 ≤ r) :
    es.foldl fold_entry (r, e) =
      (max r (max_responding es : Int),
        if r < (max_responding es : Int) then (first_enabled_at_max es : Int) else e) := by
  induction es generalizing r e with
  | nil =>
    have h0 : ¬ r < 0 := by omega
    simp [max_responding, hr, h0]
  | cons x xs ih =>
    rw [List.foldl_cons, first_enabled_at_max_cons]
    simp only [max_responding]
    by_cases hx : (x.hosts_responding : Int) > r
    · have hstep : fold_entry (r, e) x =
          ((x.hosts_responding : Int), (x.hosts_enabled : Int)) := by
        simp [fold_entry, hx]
      rw [hstep, ih _ _ (Int.ofNat_nonneg _)]
      by_cases hm : max_responding xs ≤ x.hosts_responding
      · have h1 : ¬ ((x.hosts_responding : Int) < (max_responding xs : Int)) := by omega
        have h2 : r < ((max x.hosts_responding (max_responding xs) : Nat) : Int) := by omega
        rw [if_neg h1, if_pos h2, if_pos hm]
        congr 1; omega
      · have h1 : (x.hosts_responding : Int) < (max_responding xs : Int) := by omega
        have h2 : r < ((max x.hosts_responding (max_responding xs) : Nat) : Int) := by omega
        rw [if_pos h1, if_pos h2, if_neg hm]
        congr 1; omega
    · have hstep : fold_entry (r, e) x = (r, e) := by
        simp [fold_entry, hx]
      rw [hstep, ih _ _ hr]
      by_cases hm : r < (max_responding xs : Int)
      · have h2 : r < ((max x.hosts_responding (max_responding xs) : Nat) : Int) := by omega
        have h3 : ¬ max_responding xs ≤ x.hosts_responding := by omega
        rw [if_pos hm, if_pos h2, if_neg h3]
        congr 1; omega
      · have h2 : ¬ r < ((max x.hosts_responding (max_responding xs) : Nat) : Int) := by omega
        rw [if_neg hm, if_neg h2]
        congr 1; omega

theorem foldl_fold_entry_zero (es : List mtce_hbs_cluster_entry_type) :
    es.foldl fold_entry (0, 0) = ((max_responding es : Int), (enabled_at_max es : Int)) := by
  rw [foldl_fold_entry es 0 0 (le_refl _)]
  unfold enabled_at_max
  by_cases h : max_responding es = 0
  · simp [h]
  · have hpos : (0 : Int) < (max_responding es : Int) := by omega
    rw [if_pos hpos, if_neg h, max_eq_right (Int.ofNat_nonneg _)]


/-! ## The receive handler: lemmas -/

theorem reduce_msg_short (L : HbsLayout) (d : Datagram)
    (h : d.bytes_read < (L.size_of_msg_header : Int)) : reduce_msg L d = none := by
  unfold reduce_msg
  by_cases h0 : d.bytes_read < 0
  · simp [h0]
  · simp [h0, h]

theorem reduce_msg_mismatch (L : HbsLayout) (d : Datagram) (hn : 1 ≤ d.msg.histories)
    (h : d.bytes_read ≠
      (L.size_of_msg_header : Int) + (d.msg.histories : Int) * (L.size_of_history : Int)) :
    reduce_msg L d = none := by
  unfold reduce_msg
  by_cases h0 : d.bytes_read < 0
  · simp [h0]
  by_cases h1 : (L.size_of_msg_header : Int) > d.bytes_read
  · simp [h0, h1]
  have hpos : d.msg.histories > 0 := hn
  have hne : d.bytes_read ≠
      (L.size_of_history : Int) * (d.msg.histories : Int) + (L.size_of_msg_header : Int) := by
    intro he; apply h; rw [he]; ring
  simp only [h0, h1, hpos, hne, if_true, if_false, ne_eq, not_false_eq_true]

theorem reduce_msg_isSome (L : HbsLayout) (d : Datagram) (hsize : passes_size_checks L d) :
    (reduce_msg L d).isSome = true ↔
      ∀ i, i < d.msg.histories → history_valid L (d.msg.history i) := by
  obtain ⟨hlen, hexact⟩ := hsize
  have h0 : ¬ d.bytes_read < 0 := by
    have : (0 : Int) ≤ (L.size_of_msg_header : Int) := Int.ofNat_nonneg _
    omega
  have h1 : ¬ (L.size_of_msg_header : Int) > d.bytes_read := by omega
  rw [← declared_histories_mem, ← process_histories_isSome L _ SmClusterHbsStateT.fresh]
  unfold reduce_msg
  simp only [h0, h1, if_false]
  by_cases hpos : d.msg.histories > 0
  · have he : ¬ d.bytes_read ≠
        (L.size_of_history : Int) * (d.msg.histories : Int) + (L.size_of_msg_header : Int) := by
      rw [hexact hpos]; intro hx; apply hx; ring
    simp only [hpos, he, if_true, if_false]
    cases process_histories L (declared_histories d.msg) SmClusterHbsStateT.fresh <;> simp
  · have hz : d.msg.histories = 0 := by omega
    simp [hpos, declared_histories, hz, process_histories]

theorem receive_one_none (L : HbsLayout) (d : Datagram) (g : HbsGlobals)
    (h : reduce_msg L d = none) : receive_one L d g = (false, g) := by
  simp [receive_one, h]

theorem receive_one_some (L : HbsLayout) (d : Datagram) (g : HbsGlobals)
    (state : SmClusterHbsStateT) (h : reduce_msg L d = some state) :
    receive_one L d g = (true, notify_callbacks (install_state state g)) := by
  simp [receive_one, h]

theorem receive_one_flag (L : HbsLayout) (d : Datagram) (g : HbsGlobals) :
    (receive_one L d g).1 = (reduce_msg L d).isSome := by
  unfold receive_one
  cases reduce_msg L d <;> rfl

theorem install_state_changed (state : SmClusterHbsStateT) (g : HbsGlobals)
    (h : SmClusterHbsStateT.operator_ne state g._cluster_hbs_state_current = true) :
    install_state state g =
      { g with _cluster_hbs_state_previous := g._cluster_hbs_state_current,
               _cluster_hbs_state_current := state } := by
  simp [install_state, h]

theorem install_state_unchanged (state : SmClusterHbsStateT) (g : HbsGlobals)
    (h : SmClusterHbsStateT.operator_eq state g._cluster_hbs_state_current = true) :
    install_state state g = g := by
  simp [install_state, SmClusterHbsStateT.operator_ne, h]

theorem receive_one_accepted (L : HbsLayout) (d : Datagram) (g : HbsGlobals)
    (S : SmClusterHbsStateT) (h : reduce_msg L d = some S) :
    (SmClusterHbsStateT.operator_ne S g._cluster_hbs_state_current = true →
      (receive_one L d g).2._cluster_hbs_state_previous = g._cluster_hbs_state_current ∧
      (receive_one L d g).2._cluster_hbs_state_current = S) ∧
    (SmClusterHbsStateT.operator_eq S g._cluster_hbs_state_current = true →
      (receive_one L d g).2._cluster_hbs_state_current = g._cluster_hbs_state_current ∧
      (receive_one L d g).2._cluster_hbs_state_previous = g._cluster_hbs_state_previous) ∧
    (receive_one L d g).1 = true ∧
    (receive_one L d g).2.invoked = g.invoked ++ g._callbacks ∧
    (receive_one L d g).2._callbacks = [] := by
  rw [receive_one_some L d g S h, notify_callbacks_eq]
  refine ⟨fun hne => ?_, fun heq => ?_, rfl, ?_, rfl⟩
  · rw [install_state_changed S g hne]; exact ⟨rfl, rfl⟩
  · rw [install_state_unchanged S g heq]; exact ⟨rfl, rfl⟩
  · by_cases hne : SmClusterHbsStateT.operator_ne S g._cluster_hbs_state_current = true
    · rw [install_state_changed S g hne]
    · have heq : SmClusterHbsStateT.operator_eq S g._cluster_hbs_state_current = true := by
        simpa [SmClusterHbsStateT.operator_ne] using hne
      rw [install_state_unchanged S g heq]

/-! ## The circular index: lemmas -/

theorem newest_entry_index_in_range (L : HbsLayout) (history : mtce_hbs_cluster_history_type)
    (hcap : 0 < L.MTCE_HBS_HISTORY_ENTRIES)
    (hne : 1 ≤ history.oldest_entry_index + history.entries) :
    0 ≤ newest_entry_index L history ∧
      newest_entry_index L history < (L.MTCE_HBS_HISTORY_ENTRIES : Int) ∧
      newest_entry_index L history =
        (((history.oldest_entry_index + history.entries - 1) % L.MTCE_HBS_HISTORY_ENTRIES : Nat) :
          Int) := by
  have hnum : (history.oldest_entry_index : Int) + (history.entries : Int) - 1 =
      ((history.oldest_entry_index + history.entries - 1 : Nat) : Int) := by omega
  have heq : newest_entry_index L history =
      (((history.oldest_entry_index + history.entries - 1) % L.MTCE_HBS_HISTORY_ENTRIES : Nat) :
        Int) := by
    unfold newest_entry_index
    rw [hnum, Int.tmod_eq_emod (Int.ofNat_nonneg _) (Int.ofNat_nonneg _)]
    exact (Int.ofNat_emod _ _).symm
  have hlt := Nat.mod_lt (history.oldest_entry_index + history.entries - 1) hcap
  rw [heq]
  exact ⟨Int.ofNat_nonneg _, by exact_mod_cast hlt, rfl⟩

theorem tmod_neg_one (n : Nat) (h : 2 ≤ n) : Int.tmod (-1) (n : Int) = -1 := by
  obtain ⟨k, rfl⟩ : ∃ k, n = k + 2 := ⟨n - 2, by omega⟩
  show -(((0 + 1) % (k + 2) : Nat) : Int) = -1
  rw [Nat.mod_eq_of_lt (by omega)]
  rfl

theorem newest_entry_index_empty (L : HbsLayout) (history : mtce_hbs_cluster_history_type)
    (hcap : 2 ≤ L.MTCE_HBS_HISTORY_ENTRIES) (he : history.entries = 0)
    (ho : history.oldest_entry_index = 0) : newest_entry_index L history = -1 := by
  unfold newest_entry_index
  rw [he, ho]
  have h1 : ((0 : Nat) : Int) + ((0 : Nat) : Int) - 1 = -1 := by norm_num
  rw [h1]
  exact tmod_neg_one _ hcap


theorem state_operator_eq_last_update_left (lhs rhs : SmClusterHbsStateT) (t : Int) :
    SmClusterHbsStateT.operator_eq { lhs with last_update := t } rhs =
      SmClusterHbsStateT.operator_eq lhs rhs :=
  state_operator_eq_last_update lhs rhs t rhs.last_update

theorem reduce_msg_tv_sec (L : HbsLayout) (d : Datagram) (t : Int) :
    reduce_msg L { d with tv_sec := t } =
      (reduce_msg L d).map (fun s => { s with last_update := t }) := by
  unfold reduce_msg
  simp only []
  split_ifs <;> first
    | rfl
    | (cases process_histories L (declared_histories d.msg) SmClusterHbsStateT.fresh <;> rfl)


theorem ctrl_set (s : SmClusterHbsStateT) (i c : Nat) (a : SmClusterHbsInfoT)
    (hi : i < s.controllers.length) :
    SmClusterHbsStateT.ctrl { s with controllers := s.controllers.set i a } c =
      if i = c then a else s.ctrl c := by
  unfold SmClusterHbsStateT.ctrl
  simp only [List.getD_eq_getElem?_getD, List.getElem?_set]
  by_cases h : i = c
  · subst h
    simp only [if_true, hi]
    rfl
  · simp only [h, if_false]

theorem process_history_counts (L : HbsLayout) (history : mtce_hbs_cluster_history_type)
    (state : SmClusterHbsStateT) (c : Nat) (hv : history_valid L history)
    (hlen : state.controllers.length = max_controllers) :
    (_process_cluster_hbs_history L history state).1 = true ∧
    (_process_cluster_hbs_history L history state).2.controllers.length = max_controllers ∧
    ((_process_cluster_hbs_history L history state).2.ctrl c).counts =
      if history.controller = c then fold_entry (state.ctrl c).counts (entry_read L history)
      else (state.ctrl c).counts := by
  obtain ⟨h1, h2, h3, h4⟩ := hv
  have n1 : ¬ history.controller ≥ max_controllers := by omega
  have n2 : ¬ L.MTCE_HBS_NETWORKS ≤ history.network := by omega
  have n3 : ¬ L.MTCE_HBS_HISTORY_ENTRIES < history.entries := by omega
  have n4 : ¬ L.MTCE_HBS_HISTORY_ENTRIES < history.oldest_entry_index := by omega
  have hi : history.controller < state.controllers.length := by omega
  unfold _process_cluster_hbs_history
  simp only [n1, n2, n3, n4, if_false]
  refine ⟨trivial, by simp [hlen], ?_⟩
  rw [ctrl_set _ _ _ _ hi]
  by_cases hc : history.controller = c
  · subst hc
    simp only [if_true, fold_entry, entry_read, SmClusterHbsInfoT.counts]
    split_ifs <;> rfl
  · simp [hc]

theorem process_histories_counts (L : HbsLayout) (hs : List mtce_hbs_cluster_history_type)
    (state : SmClusterHbsStateT) (c : Nat) (hv : ∀ h, h ∈ hs → history_valid L h)
    (hlen : state.controllers.length = max_controllers) :
    ∃ state1, process_histories L hs state = some state1 ∧
      state1.controllers.length = max_controllers ∧
      (state1.ctrl c).counts =
        (entries_read_of L c hs).foldl fold_entry (state.ctrl c).counts := by
  induction hs generalizing state with
  | nil => exact ⟨state, rfl, hlen, rfl⟩
  | cons h rest ih =>
    obtain ⟨hflag, hlen1, hcounts⟩ :=
      process_history_counts L h state c (hv h (List.mem_cons_self _ _)) hlen
    obtain ⟨state2, hrun, hlen2, hfold⟩ :=
      ih (_process_cluster_hbs_history L h state).2
        (fun x hx => hv x (List.mem_cons_of_mem _ hx)) hlen1
    refine ⟨state2, ?_, hlen2, ?_⟩
    · rw [← hrun]
      simp only [process_histories]
      rcases hp : _process_cluster_hbs_history L h state with ⟨flag, st⟩
      rw [hp] at hflag
      simp only at hflag
      subst hflag
      rfl
    · rw [hfold, hcounts]
      unfold entries_read_of
      by_cases hc : h.controller = c
      · simp [List.filter_cons, hc]
      · simp [List.filter_cons, hc]

theorem process_history_monotone (L : HbsLayout) (history : mtce_hbs_cluster_history_type)
    (state : SmClusterHbsStateT) (c : Nat) :
    (state.ctrl c).number_of_node_reachable ≤
      ((_process_cluster_hbs_history L history state).2.ctrl c).number_of_node_reachable := by
  unfold _process_cluster_hbs_history
  by_cases h1 : history.controller ≥ max_controllers
  · simp only [h1, if_true]; exact le_refl _
  by_cases h2 : L.MTCE_HBS_NETWORKS ≤ history.network
  · simp only [h1, h2, if_true, if_false]; exact le_refl _
  by_cases h3 : L.MTCE_HBS_HISTORY_ENTRIES < history.entries
  · simp only [h1, h2, h3, if_true, if_false]; exact le_refl _
  by_cases h4 : L.MTCE_HBS_HISTORY_ENTRIES < history.oldest_entry_index
  · simp only [h1, h2, h3, h4, if_true, if_false]; exact le_refl _
  simp only [h1, h2, h3, h4, if_false]
  by_cases hi : history.controller < state.controllers.length
  · rw [ctrl_set _ _ _ _ hi]
    by_cases hc : history.controller = c
    · subst hc
      simp only [if_true]
      split_ifs with h5
      · exact le_of_lt h5
      · exact le_refl _
    · simp only [hc, if_false]; exact le_refl _
  · rw [List.set_eq_of_length_le (by omega)]

theorem reduce_msg_eq_map (L : HbsLayout) (d : Datagram) (hsize : passes_size_checks L d) :
    reduce_msg L d =
      (process_histories L (declared_histories d.msg) SmClusterHbsStateT.fresh).map
        (fun state => { state with last_update := d.tv_sec,
                                   storage0_enabled := decide (d.msg.storage0_enabled ≠ 0) }) := by
  obtain ⟨hlen, hexact⟩ := hsize
  have h0 : ¬ d.bytes_read < 0 := by
    have : (0 : Int) ≤ (L.size_of_msg_header : Int) := Int.ofNat_nonneg _
    omega
  have h1 : ¬ (L.size_of_msg_header : Int) > d.bytes_read := by omega
  unfold reduce_msg
  simp only [h0, h1, if_false]
  by_cases hpos : d.msg.histories > 0
  · have he : ¬ d.bytes_read ≠
        (L.size_of_history : Int) * (d.msg.histories : Int) + (L.size_of_msg_header : Int) := by
      rw [hexact hpos]; intro hx; apply hx; ring
    simp only [hpos, he, if_true, if_false]
    cases process_histories L (declared_histories d.msg) SmClusterHbsStateT.fresh <;> rfl
  · have hz : d.msg.histories = 0 := by omega
    simp [declared_histories, hz, process_histories]

/-! ## Claims -/

/-- C1: a message that passes the size checks is applied exactly when every declared record
passes the per-record validation; one refused record at any position makes the handler
return with current, previous and the callback queue as they were, and a message whose
records are all valid is reduced, compared with current and has the callbacks drained. -/
theorem record_validation_gates_whole_message (L : HbsLayout) (d : Datagram) (g : HbsGlobals)
    (hsize : passes_size_checks L d) :
    ((receive_one L d g).1 = true ↔
        ∀ i, i < d.msg.histories → history_valid L (d.msg.history i)) ∧
    ((∃ i, i < d.msg.histories ∧ ¬ history_valid L (d.msg.history i)) →
        receive_one L d g = (false, g)) ∧
    ((∀ i, i < d.msg.histories → history_valid L (d.msg.history i)) →
        ∃ state, reduce_msg L d = some state ∧
          receive_one L d g = (true, notify_callbacks (install_state state g))) := by
  have hiff := reduce_msg_isSome L d hsize
  refine ⟨?_, ?_, ?_⟩
  · rw [receive_one_flag]; exact hiff
  · rintro ⟨i, hi, hbad⟩
    apply receive_one_none
    cases hr : reduce_msg L d with
    | none => rfl
    | some state =>
      rw [hr] at hiff
      exact absurd (hiff.mp rfl i hi) hbad
  · intro hall
    cases hr : reduce_msg L d with
    | none =>
      rw [hr] at hiff
      exact absurd (hiff.mpr hall) (by simp)
    | some state => exact ⟨state, rfl, receive_one_some L d g state hr⟩

/-- C1 witness: a one-record message for controller 2 passes the size checks and is
discarded, with the two queued callbacks left in place. -/
theorem record_validation_gates_whole_message_witness :
    passes_size_checks sample_layout bad_controller_datagram ∧
    (((receive_one sample_layout bad_controller_datagram queued_globals).1 = true ↔
        ∀ i, i < bad_controller_datagram.msg.histories →
          history_valid sample_layout (bad_controller_datagram.msg.history i)) ∧
    ((∃ i, i < bad_controller_datagram.msg.histories ∧
          ¬ history_valid sample_layout (bad_controller_datagram.msg.history i)) →
        receive_one sample_layout bad_controller_datagram queued_globals =
          (false, queued_globals)) ∧
    ((∀ i, i < bad_controller_datagram.msg.histories →
          history_valid sample_layout (bad_controller_datagram.msg.history i)) →
        ∃ state, reduce_msg sample_layout bad_controller_datagram = some state ∧
          receive_one sample_layout bad_controller_datagram queued_globals =
            (true, notify_callbacks (install_state state queued_globals)))) :=
  ⟨by unfold passes_size_checks; decide,
   record_validation_gates_whole_message sample_layout bad_controller_datagram queued_globals
     (by unfold passes_size_checks; decide)⟩


/-- C2: a message shorter than the header, or one declaring at least one record whose
length is not header plus records, is discarded: the handler returns with current,
previous, the callback queue and the invocation log as they were. -/
theorem malformed_size_is_discarded (L : HbsLayout) (d : Datagram) (g : HbsGlobals)
    (h : d.bytes_read < (L.size_of_msg_header : Int) ∨
      (1 ≤ d.msg.histories ∧ d.bytes_read ≠
        (L.size_of_msg_header : Int) + (d.msg.histories : Int) * (L.size_of_history : Int))) :
    receive_one L d g = (false, g) ∧
    ∀ rest, _cluster_hbs_info_msg_received L (d :: rest) g = g := by
  have hr : reduce_msg L d = none := by
    rcases h with h | ⟨hn, h⟩
    · exact reduce_msg_short L d h
    · exact reduce_msg_mismatch L d hn h
  have h1 := receive_one_none L d g hr
  refine ⟨h1, fun rest => ?_⟩
  simp [_cluster_hbs_info_msg_received, h1]

/-- C2 witness: two records declared, header plus one record received. -/
theorem malformed_size_is_discarded_witness :
    (short_datagram.bytes_read < (sample_layout.size_of_msg_header : Int) ∨
      (1 ≤ short_datagram.msg.histories ∧ short_datagram.bytes_read ≠
        (sample_layout.size_of_msg_header : Int) +
          (short_datagram.msg.histories : Int) * (sample_layout.size_of_history : Int))) ∧
    (receive_one sample_layout short_datagram queued_globals = (false, queued_globals) ∧
      ∀ rest, _cluster_hbs_info_msg_received sample_layout (short_datagram :: rest)
        queued_globals = queued_globals) :=
  ⟨by decide, malformed_size_is_discarded sample_layout short_datagram queued_globals (by decide)⟩

/-- C3 counterexample: a message declaring no record and one byte longer than the header
is not rejected: both queued callbacks are invoked. -/
theorem padded_header_only_message_is_accepted :
    padded_datagram.bytes_read ≠
        (sample_layout.size_of_msg_header : Int) +
          (padded_datagram.msg.histories : Int) * (sample_layout.size_of_history : Int) ∧
    receive_one sample_layout padded_datagram queued_globals ≠ (false, queued_globals) ∧
    (receive_one sample_layout padded_datagram queued_globals).2.invoked = [1, 2] := by
  decide

/-- C3 as amended: with at least one record declared the message is rejected unless its
length is exactly header plus records; with no record declared it is rejected exactly
when it is shorter than the header. -/
theorem size_check_by_record_count (L : HbsLayout) (d : Datagram) (g : HbsGlobals) :
    (1 ≤ d.msg.histories →
      d.bytes_read ≠
        (L.size_of_msg_header : Int) + (d.msg.histories : Int) * (L.size_of_history : Int) →
      receive_one L d g = (false, g)) ∧
    (d.msg.histories = 0 →
      ((receive_one L d g).1 = false ↔ d.bytes_read < (L.size_of_msg_header : Int)) ∧
      (d.bytes_read < (L.size_of_msg_header : Int) → receive_one L d g = (false, g))) := by
  refine ⟨fun hn h => receive_one_none L d g (reduce_msg_mismatch L d hn h), fun hz => ⟨?_, ?_⟩⟩
  · rw [receive_one_flag]
    constructor
    · intro hnone
      by_contra hlen
      have hsize : passes_size_checks L d := ⟨by omega, fun hpos => by omega⟩
      have hsome := (reduce_msg_isSome L d hsize).mpr (fun i hi => by omega)
      rw [hsome] at hnone
      exact absurd hnone (by simp)
    · intro hlen
      rw [reduce_msg_short L d hlen]; rfl
  · intro hlen
    exact receive_one_none L d g (reduce_msg_short L d hlen)

/-- C3 witness: the short two-record message is rejected, and the padded header-only
message is rejected exactly when shorter than the header. -/
theorem size_check_by_record_count_witness :
    receive_one sample_layout short_datagram queued_globals = (false, queued_globals) ∧
    ((receive_one sample_layout padded_datagram queued_globals).1 = false ↔
      padded_datagram.bytes_read < (sample_layout.size_of_msg_header : Int)) :=
  ⟨(size_check_by_record_count sample_layout short_datagram queued_globals).1
      (by decide) (by decide),
   ((size_check_by_record_count sample_layout padded_datagram queued_globals).2 rfl).1⟩

/-- C4 at the failing input: a record with `entries = 0` and oldest index 0 passes the
validation, and its newest entry index is -1, outside `0 .. MTCE_HBS_HISTORY_ENTRIES - 1`. -/
theorem empty_record_index_is_negative :
    history_valid sample_layout empty_history ∧
    (_process_cluster_hbs_history sample_layout empty_history SmClusterHbsStateT.fresh).1 = true ∧
    newest_entry_index sample_layout empty_history = -1 ∧
    ¬ (0 ≤ newest_entry_index sample_layout empty_history ∧
        newest_entry_index sample_layout empty_history <
          (sample_layout.MTCE_HBS_HISTORY_ENTRIES : Int)) := by
  unfold history_valid
  decide

theorem entry_read_eq_spec (L : HbsLayout) (history : mtce_hbs_cluster_history_type)
    (hv : history_valid L history) (he : 1 ≤ history.entries) :
    entry_read L history = spec_current_entry L history := by
  have hcap : 0 < L.MTCE_HBS_HISTORY_ENTRIES := by
    have := hv.2.2.1
    omega
  unfold entry_read spec_current_entry spec_newest_index
  rw [(newest_entry_index_in_range L history hcap (by omega)).2.2]

theorem entries_read_eq_spec (L : HbsLayout) (c : Nat)
    (hs : List mtce_hbs_cluster_history_type)
    (hv : ∀ h, h ∈ hs → history_valid L h ∧ 1 ≤ h.entries) :
    entries_read_of L c hs = spec_current_entries_of L c hs := by
  unfold entries_read_of spec_current_entries_of
  apply List.map_congr_left
  intro h hmem
  have hin := (List.mem_filter.mp hmem).1
  exact entry_read_eq_spec L h (hv h hin).1 (hv h hin).2

/-- For a message whose records are all valid and hold at least one entry each, and every
controller `c`: the reduced state has as `number_of_node_reachable` of `c` the maximum of
`hosts_responding` over the spec's current entries of the records for `c` (0 without a
record) and as `number_of_node_enabled` the `hosts_enabled` of the first entry attaining
that maximum (0 when the maximum is 0); folding a record never lowers
`number_of_node_reachable`. -/
theorem reduction_takes_maximum (L : HbsLayout) (d : Datagram) (c : Nat)
    (hsize : passes_size_checks L d)
    (hvalid : ∀ i, i < d.msg.histories →
      history_valid L (d.msg.history i) ∧ 1 ≤ (d.msg.history i).entries) :
    ∃ S, reduce_msg L d = some S ∧
      (S.ctrl c).number_of_node_reachable =
        (max_responding (spec_current_entries_of L c (declared_histories d.msg)) : Int) ∧
      (S.ctrl c).number_of_node_enabled =
        (enabled_at_max (spec_current_entries_of L c (declared_histories d.msg)) : Int) ∧
      ∀ history state, (state.ctrl c).number_of_node_reachable ≤
        ((_process_cluster_hbs_history L history state).2.ctrl c).number_of_node_reachable := by
  have hall := (declared_histories_mem d.msg
    (fun h => history_valid L h ∧ 1 ≤ h.entries)).mpr hvalid
  obtain ⟨state1, hrun, _, hcounts⟩ :=
    process_histories_counts L (declared_histories d.msg) SmClusterHbsStateT.fresh c
      (fun h hh => (hall h hh).1) rfl
  have hfresh : (SmClusterHbsStateT.fresh.ctrl c).counts = (0, 0) := by
    unfold SmClusterHbsStateT.fresh SmClusterHbsStateT.ctrl max_controllers
    rcases c with _ | _ | c <;> rfl
  rw [hfresh, foldl_fold_entry_zero, entries_read_eq_spec L c _ hall] at hcounts
  refine ⟨{ state1 with last_update := d.tv_sec,
                        storage0_enabled := decide (d.msg.storage0_enabled ≠ 0) }, ?_, ?_, ?_,
    fun history state => process_history_monotone L history state c⟩
  · rw [reduce_msg_eq_map L d hsize, hrun]; rfl
  · exact congrArg Prod.fst hcounts
  · exact congrArg Prod.snd hcounts

/-- An instance of the maximum: in the slotted message the current entries of controller
0 lie in slots 0, 1 and 4 (every other index holds 1000) with reachable counts 3, 7, 5, and
the reduced state has 7 reachable and 6 enabled nodes for controller 0, and 8 and 8 for
controller 1. -/
theorem reduction_takes_maximum_example :
    (passes_size_checks sample_layout slotted_datagram ∧
      ∀ i, i < slotted_datagram.msg.histories →
        history_valid sample_layout (slotted_datagram.msg.history i) ∧
          1 ≤ (slotted_datagram.msg.history i).entries) ∧
    (spec_current_entries_of sample_layout 0 (declared_histories slotted_datagram.msg)).map
      (fun e => e.hosts_responding) = [3, 7, 5] ∧
    (reduce_msg sample_layout slotted_datagram).map (fun S => (S.ctrl 0).counts) =
      some (7, 6) ∧
    (reduce_msg sample_layout slotted_datagram).map (fun S => (S.ctrl 1).counts) =
      some (8, 8) ∧
    ∃ S, reduce_msg sample_layout slotted_datagram = some S ∧
      (S.ctrl 0).number_of_node_reachable =
        (max_responding (spec_current_entries_of sample_layout 0
          (declared_histories slotted_datagram.msg)) : Int) ∧
      (S.ctrl 0).number_of_node_enabled =
        (enabled_at_max (spec_current_entries_of sample_layout 0
          (declared_histories slotted_datagram.msg)) : Int) ∧
      ∀ history state, (state.ctrl 0).number_of_node_reachable ≤
        ((_process_cluster_hbs_history sample_layout history state).2.ctrl
          0).number_of_node_reachable :=
  ⟨⟨by unfold passes_size_checks; decide, by unfold history_valid; decide⟩,
   by decide, by decide, by decide,
   reduction_takes_maximum sample_layout slotted_datagram 0
     (by unfold passes_size_checks; decide) (by unfold history_valid; decide)⟩

/-- C5 at the failing input: a message whose only record is valid and empty
(`entries = 0`, oldest index 0) with zeros in all 20 slots of its array.  Every entry of
the record has 0 responding hosts, so the maximum the claim speaks of is 0; the reduction
takes the counts of controller 0 from what lies before the array, at index -1, for
example 99 reachable and 77 enabled nodes. -/
theorem empty_record_counts_come_from_outside :
    (∀ outside : mtce_hbs_cluster_entry_type,
      history_valid sample_layout (empty_history_with outside) ∧
      (∀ i : Nat, ((empty_history_with outside).entry (i : Int)).hosts_responding = 0) ∧
      max_responding (spec_current_entries_of sample_layout 0
        (declared_histories (empty_record_datagram outside).msg)) = 0 ∧
      (reduce_msg sample_layout (empty_record_datagram outside)).map
          (fun S => (S.ctrl 0).counts) =
        some (fold_entry (0, 0) outside)) ∧
    (reduce_msg sample_layout
        (empty_record_datagram { hosts_enabled := 77, hosts_responding := 99 })).map
      (fun S => (S.ctrl 0).counts) = some (99, 77) := by
  have hvalid : ∀ outside : mtce_hbs_cluster_entry_type,
      history_valid sample_layout (empty_history_with outside) := by
    intro outside
    simp [history_valid, empty_history_with, sample_layout, max_controllers]
  refine ⟨fun outside => ⟨hvalid outside, fun i => ?_, rfl, ?_⟩, by decide⟩
  · have hi : ((i : Nat) : Int) ≠ -1 := by omega
    simp [empty_history_with, hi]
  · have hsize : passes_size_checks sample_layout (empty_record_datagram outside) := by
      simp [passes_size_checks, empty_record_datagram, uniform_msg, sample_layout]
    have hv : ∀ h, h ∈ declared_histories (empty_record_datagram outside).msg →
        history_valid sample_layout h := by
      intro h hh
      have : h = empty_history_with outside := by
        simpa [declared_histories, empty_record_datagram, uniform_msg] using hh
      rw [this]; exact hvalid outside
    obtain ⟨state1, hrun, _, hcounts⟩ :=
      process_histories_counts sample_layout
        (declared_histories (empty_record_datagram outside).msg) SmClusterHbsStateT.fresh 0
        hv rfl
    rw [reduce_msg_eq_map sample_layout _ hsize, hrun]
    simp only [Option.map_some']
    have hidx : newest_entry_index sample_layout (empty_history_with outside) = -1 :=
      newest_entry_index_empty sample_layout _ (by decide) rfl rfl
    have hread : entries_read_of sample_layout 0
        (declared_histories (empty_record_datagram outside).msg) = [outside] := by
      have hdecl : declared_histories (empty_record_datagram outside).msg =
          [empty_history_with outside] := rfl
      have hentry : entry_read sample_layout (empty_history_with outside) = outside := by
        unfold entry_read
        rw [hidx]
        rfl
      rw [hdecl]
      show [entry_read sample_layout (empty_history_with outside)] = [outside]
      rw [hentry]
    rw [hread] at hcounts
    exact congrArg some hcounts

/-- C6: for an accepted message reduced to `S`, a state that differs from current makes
previous the old current and current `S`; a state equal to current leaves both as they
were; in both cases the pending callbacks are notified. -/
theorem accepted_message_diff (L : HbsLayout) (d : Datagram) (g : HbsGlobals)
    (S : SmClusterHbsStateT) (h : reduce_msg L d = some S) :
    (SmClusterHbsStateT.operator_ne S g._cluster_hbs_state_current = true →
      (receive_one L d g).2._cluster_hbs_state_previous = g._cluster_hbs_state_current ∧
      (receive_one L d g).2._cluster_hbs_state_current = S) ∧
    (SmClusterHbsStateT.operator_eq S g._cluster_hbs_state_current = true →
      (receive_one L d g).2._cluster_hbs_state_current = g._cluster_hbs_state_current ∧
      (receive_one L d g).2._cluster_hbs_state_previous = g._cluster_hbs_state_previous) ∧
    (receive_one L d g).1 = true ∧
    (receive_one L d g).2.invoked = g.invoked ++ g._callbacks ∧
    (receive_one L d g).2._callbacks = [] :=
  receive_one_accepted L d g S h

/-- C6 witness: a header-only message with the storage-0 flag set, received at process
start with two callbacks queued. -/
theorem accepted_message_diff_witness :
    reduce_msg sample_layout storage0_datagram =
      some { SmClusterHbsStateT.fresh with storage0_enabled := true, last_update := 9 } ∧
    (receive_one sample_layout storage0_datagram queued_globals).2._cluster_hbs_state_previous =
      SmClusterHbsStateT.fresh ∧
    (receive_one sample_layout storage0_datagram queued_globals).2._cluster_hbs_state_current =
      { SmClusterHbsStateT.fresh with storage0_enabled := true, last_update := 9 } ∧
    (receive_one sample_layout storage0_datagram queued_globals).2.invoked = [1, 2] :=
  ⟨by decide,
   ((accepted_message_diff sample_layout storage0_datagram queued_globals
      { SmClusterHbsStateT.fresh with storage0_enabled := true, last_update := 9 }
      (by decide)).1 (by decide)).1,
   ((accepted_message_diff sample_layout storage0_datagram queued_globals
      { SmClusterHbsStateT.fresh with storage0_enabled := true, last_update := 9 }
      (by decide)).1 (by decide)).2,
   (accepted_message_diff sample_layout storage0_datagram queued_globals
      { SmClusterHbsStateT.fresh with storage0_enabled := true, last_update := 9 }
      (by decide)).2.2.2.1⟩

/-- C7 counterexample: the same message fed three times from process start.  The first
feed changes the state; for the second and third feed, previous after the third is still
the fresh state and not the state that was current before the second. -/
theorem repeated_unchanged_message_keeps_previous :
    (receive_one sample_layout storage0_datagram
        (receive_one sample_layout storage0_datagram
          (receive_one sample_layout storage0_datagram
            HbsGlobals.initial).2).2).2._cluster_hbs_state_previous ≠
      (receive_one sample_layout storage0_datagram
        HbsGlobals.initial).2._cluster_hbs_state_current ∧
    SmClusterHbsStateT.operator_eq
      (receive_one sample_layout storage0_datagram
        (receive_one sample_layout storage0_datagram
          (receive_one sample_layout storage0_datagram
            HbsGlobals.initial).2).2).2._cluster_hbs_state_previous
      (receive_one sample_layout storage0_datagram
        HbsGlobals.initial).2._cluster_hbs_state_current = false := by
  decide

/-- C7 as amended: feeding an accepted message a second time (at any later clock reading)
leaves current and previous as the first feed left them; previous is then the state that
was current before the first feed when the first feed changed the state, and the old
previous when it did not. -/
theorem repeated_message_is_idempotent (L : HbsLayout) (d : Datagram) (g : HbsGlobals)
    (S : SmClusterHbsStateT) (t : Int) (h : reduce_msg L d = some S) :
    (receive_one L { d with tv_sec := t } (receive_one L d g).2).1 = true ∧
    (receive_one L { d with tv_sec := t } (receive_one L d g).2).2._cluster_hbs_state_current =
      (receive_one L d g).2._cluster_hbs_state_current ∧
    (receive_one L { d with tv_sec := t } (receive_one L d g).2).2._cluster_hbs_state_previous =
      (receive_one L d g).2._cluster_hbs_state_previous ∧
    (SmClusterHbsStateT.operator_ne S g._cluster_hbs_state_current = true →
      (receive_one L { d with tv_sec := t } (receive_one L d g).2).2._cluster_hbs_state_previous =
        g._cluster_hbs_state_current) ∧
    (SmClusterHbsStateT.operator_eq S g._cluster_hbs_state_current = true →
      (receive_one L { d with tv_sec := t } (receive_one L d g).2).2._cluster_hbs_state_previous =
        g._cluster_hbs_state_previous) := by
  have h2 : reduce_msg L { d with tv_sec := t } = some { S with last_update := t } := by
    rw [reduce_msg_tv_sec, h]; rfl
  have hsame : SmClusterHbsStateT.operator_eq { S with last_update := t }
      (receive_one L d g).2._cluster_hbs_state_current = true := by
    rw [state_operator_eq_last_update_left, receive_one_some L d g S h, notify_callbacks_eq]
    by_cases hne : SmClusterHbsStateT.operator_ne S g._cluster_hbs_state_current = true
    · rw [install_state_changed S g hne]; exact state_operator_eq_refl S
    · have heq : SmClusterHbsStateT.operator_eq S g._cluster_hbs_state_current = true := by
        simpa [SmClusterHbsStateT.operator_ne] using hne
      rw [install_state_unchanged S g heq]; exact heq
  have hstep := receive_one_accepted L { d with tv_sec := t } (receive_one L d g).2
    { S with last_update := t } h2
  have hfirst := receive_one_accepted L d g S h
  obtain ⟨hcur, hprev⟩ := hstep.2.1 hsame
  refine ⟨hstep.2.2.1, hcur, hprev, fun hne => ?_, fun heq => ?_⟩
  · rw [hprev]; exact (hfirst.1 hne).1
  · rw [hprev]; exact (hfirst.2.1 heq).2

/-- C7 witness: the header-only message with the storage-0 flag, fed at second 9 and again
at second 12 from process start. -/
theorem repeated_message_is_idempotent_witness :
    reduce_msg sample_layout storage0_datagram =
      some { SmClusterHbsStateT.fresh with storage0_enabled := true, last_update := 9 } ∧
    (receive_one sample_layout { storage0_datagram with tv_sec := 12 }
        (receive_one sample_layout storage0_datagram
          HbsGlobals.initial).2).2._cluster_hbs_state_current =
      (receive_one sample_layout storage0_datagram
        HbsGlobals.initial).2._cluster_hbs_state_current ∧
    (receive_one sample_layout { storage0_datagram with tv_sec := 12 }
        (receive_one sample_layout storage0_datagram
          HbsGlobals.initial).2).2._cluster_hbs_state_previous =
      HbsGlobals.initial._cluster_hbs_state_current :=
  ⟨by decide,
   (repeated_message_is_idempotent sample_layout storage0_datagram HbsGlobals.initial
      { SmClusterHbsStateT.fresh with storage0_enabled := true, last_update := 9 } 12
      (by decide)).2.1,
   (repeated_message_is_idempotent sample_layout storage0_datagram HbsGlobals.initial
      { SmClusterHbsStateT.fresh with storage0_enabled := true, last_update := 9 } 12
      (by decide)).2.2.2.1 (by decide)⟩

/-- C8 counterexample: two snapshots that differ only in the count of enabled nodes
compare equal. -/
theorem info_equality_ignores_enabled_count :
    SmClusterHbsInfoT.operator_eq
        { storage0_responding := true, sm_heartbeat_fail := false,
          number_of_node_reachable := 3, number_of_node_enabled := 3 }
        { storage0_responding := true, sm_heartbeat_fail := false,
          number_of_node_reachable := 3, number_of_node_enabled := 2 } = true ∧
    ({ storage0_responding := true, sm_heartbeat_fail := false,
       number_of_node_reachable := 3, number_of_node_enabled := 3 } : SmClusterHbsInfoT) ≠
      { storage0_responding := true, sm_heartbeat_fail := false,
        number_of_node_reachable := 3, number_of_node_enabled := 2 } := by
  decide

/-- C8 as amended: two per-controller snapshots compare equal exactly when
`storage0_responding`, `sm_heartbeat_fail` and `number_of_node_reachable` agree;
`number_of_node_enabled` has no influence on the result. -/
theorem info_equality_three_fields (lhs rhs : SmClusterHbsInfoT) :
    (SmClusterHbsInfoT.operator_eq lhs rhs = true ↔
      lhs.storage0_responding = rhs.storage0_responding ∧
      lhs.sm_heartbeat_fail = rhs.sm_heartbeat_fail ∧
      lhs.number_of_node_reachable = rhs.number_of_node_reachable) ∧
    (∀ m n : Int,
      SmClusterHbsInfoT.operator_eq { lhs with number_of_node_enabled := m }
          { rhs with number_of_node_enabled := n } =
        SmClusterHbsInfoT.operator_eq lhs rhs) ∧
    SmClusterHbsInfoT.operator_ne lhs rhs = !(SmClusterHbsInfoT.operator_eq lhs rhs) :=
  ⟨info_operator_eq_iff lhs rhs, fun _ _ => rfl, rfl⟩

/-- C9: two cluster states compare equal exactly when their `storage0_enabled` flags agree
and `controllers[i]` compare equal for every `i < max_controllers`; `last_update` has no
influence on the result, and `operator!=` is the negation of `operator==`. -/
theorem state_equality_ignores_last_update (lhs rhs : SmClusterHbsStateT) :
    (SmClusterHbsStateT.operator_eq lhs rhs = true ↔
      lhs.storage0_enabled = rhs.storage0_enabled ∧
      ∀ i, i < max_controllers →
        SmClusterHbsInfoT.operator_eq (lhs.ctrl i) (rhs.ctrl i) = true) ∧
    (∀ t u : Int,
      SmClusterHbsStateT.operator_eq { lhs with last_update := t } { rhs with last_update := u } =
        SmClusterHbsStateT.operator_eq lhs rhs) ∧
    SmClusterHbsStateT.operator_ne lhs rhs = !(SmClusterHbsStateT.operator_eq lhs rhs) :=
  ⟨state_operator_eq_iff lhs rhs, state_operator_eq_last_update lhs rhs, rfl⟩

/-- C10: an accepted message, whether or not it changes the state, leaves the callback
queue empty and extends the invocation log by exactly the callbacks that were pending, in
the order they were queued, so each pending callback is invoked once. -/
theorem accepted_message_drains_callbacks (L : HbsLayout) (d : Datagram) (g : HbsGlobals)
    (h : (receive_one L d g).1 = true) :
    (receive_one L d g).2._callbacks = [] ∧
    (receive_one L d g).2.invoked = g.invoked ++ g._callbacks ∧
    ∀ cb : Callback, List.count cb (receive_one L d g).2.invoked =
      List.count cb g.invoked + List.count cb g._callbacks := by
  rw [receive_one_flag] at h
  obtain ⟨S, hS⟩ := Option.isSome_iff_exists.mp h
  have hd := receive_one_accepted L d g S hS
  refine ⟨hd.2.2.2.2, hd.2.2.2.1, fun cb => ?_⟩
  rw [hd.2.2.2.1, List.count_append]

/-- C10 witness: a header-only message that leaves the state unchanged, received with
callbacks 1 and 2 queued in that order. -/
theorem accepted_message_drains_callbacks_witness :
    (receive_one sample_layout plain_datagram queued_globals).1 = true ∧
    (receive_one sample_layout plain_datagram queued_globals).2._cluster_hbs_state_current =
      queued_globals._cluster_hbs_state_current ∧
    (receive_one sample_layout plain_datagram queued_globals).2._callbacks = [] ∧
    (receive_one sample_layout plain_datagram queued_globals).2.invoked = [1, 2] :=
  ⟨by decide, by decide,
   (accepted_message_drains_callbacks sample_layout plain_datagram queued_globals
      (by decide)).1,
   (accepted_message_drains_callbacks sample_layout plain_datagram queued_globals
      (by decide)).2.1⟩

/-! ## The query: lemmas -/

theorem query_port_rejected (callback : Option Callback) (env : QueryEnv)
    (m : SmClusterHbsInfoMsg) (h : atoi m.server_port < 0) :
    cluster_hbs_info_query callback env m = (false, m) := by
  unfold cluster_hbs_info_query
  simp [h]

theorem query_pulse_collapsed (env : QueryEnv) (m : SmClusterHbsInfoMsg)
    (hport : 0 ≤ atoi m.server_port) (hlatch : m._sending_query = true) :
    cluster_hbs_info_query none env m = (true, m) := by
  have hp : ¬ atoi m.server_port < 0 := by omega
  unfold cluster_hbs_info_query
  simp only [gt_iff_lt, hp, if_false, hlatch, Option.isNone_none, Bool.and_self, if_true]
  rw [← hlatch]

theorem query_sent (callback : Option Callback) (env : QueryEnv) (m : SmClusterHbsInfoMsg)
    (hport : 0 ≤ atoi m.server_port)
    (hgo : ¬ (m._sending_query = true ∧ callback = none)) :
    cluster_hbs_info_query callback env m =
      if env.sendto_ok then
        (true, { m with
          _sending_query := false,
          sendto_calls := m.sendto_calls ++ [request_id callback.isNone env.clock],
          _callbacks := m._callbacks ++ callback.toList })
      else
        (false, { m with
          _sending_query := false,
          sendto_calls := m.sendto_calls ++ [request_id callback.isNone env.clock] }) := by
  have hp : ¬ atoi m.server_port < 0 := by omega
  have hc : (m._sending_query && callback.isNone) = false := by
    cases hl : m._sending_query <;> cases callback <;> simp_all
  unfold cluster_hbs_info_query
  simp only [gt_iff_lt, hp, if_false, hc, _get_address, Bool.false_eq_true]
  cases env.sendto_ok <;> cases callback <;> simp

/-- C11 counterexample: an alive pulse made while the latch is set (server port valid)
returns with the latch still set. -/
theorem pulse_returns_with_latch_set :
    (cluster_hbs_info_query none sending_env latched_members).1 = true ∧
    (cluster_hbs_info_query none sending_env latched_members).2._sending_query = true := by
  decide

/-- C11 as amended: a call entered with the latch clear returns with the latch clear on
every exit path; a data request with a valid server port returns with the latch clear
whatever it was on entry; a call that returns at the port check leaves the latch as it
was, and an alive pulse entered with the latch set and a valid port leaves it set. -/
theorem latch_after_query (callback : Option Callback) (env : QueryEnv)
    (m : SmClusterHbsInfoMsg) :
    (m._sending_query = false →
      (cluster_hbs_info_query callback env m).2._sending_query = false) ∧
    (0 ≤ atoi m.server_port → callback ≠ none →
      (cluster_hbs_info_query callback env m).2._sending_query = false) ∧
    (atoi m.server_port < 0 →
      (cluster_hbs_info_query callback env m).2._sending_query = m._sending_query) ∧
    (0 ≤ atoi m.server_port → m._sending_query = true → callback = none →
      (cluster_hbs_info_query callback env m).2._sending_query = true) := by
  have hsent : 0 ≤ atoi m.server_port → ¬ (m._sending_query = true ∧ callback = none) →
      (cluster_hbs_info_query callback env m).2._sending_query = false := by
    intro hport hgo
    rw [query_sent callback env m hport hgo]
    cases env.sendto_ok <;> rfl
  refine ⟨fun hclear => ?_, fun hport hcb => hsent hport (fun h => hcb h.2), fun hneg => ?_,
    fun hport hlatch hcb => ?_⟩
  · by_cases hp : atoi m.server_port < 0
    · rw [query_port_rejected callback env m hp]; exact hclear
    · exact hsent (by omega) (fun h => by rw [hclear] at h; exact absurd h.1 (by simp))
  · rw [query_port_rejected callback env m hneg]
  · subst hcb
    rw [query_pulse_collapsed env m hport hlatch]; exact hlatch

/-- C11 witness: a data request whose send fails, entered with the latch clear, and a data
request entered with the latch set, both return with the latch clear. -/
theorem latch_after_query_witness :
    (cluster_hbs_info_query (some 7) failing_env
      SmClusterHbsInfoMsg.start).2._sending_query = false ∧
    (cluster_hbs_info_query (some 7) sending_env latched_members).2._sending_query = false :=
  ⟨(latch_after_query (some 7) failing_env SmClusterHbsInfoMsg.start).1 rfl,
   (latch_after_query (some 7) sending_env latched_members).2.1 (by decide) (by decide)⟩

theorem pulse_collapsed_result (env : QueryEnv) (m : SmClusterHbsInfoMsg)
    (hport : 0 ≤ atoi m.server_port) (hlatch : m._sending_query = true) :
    (send_alive_pulse env m).1 = true ∧
    (send_alive_pulse env m).2.sendto_calls = m.sendto_calls ∧
    (send_alive_pulse env m).2._callbacks = m._callbacks := by
  unfold send_alive_pulse
  rw [query_pulse_collapsed env m hport hlatch]
  exact ⟨rfl, rfl, rfl⟩

theorem pulse_keeps_queue (env : QueryEnv) (m : SmClusterHbsInfoMsg) :
    (send_alive_pulse env m).2._callbacks = m._callbacks := by
  unfold send_alive_pulse
  by_cases hp : atoi m.server_port < 0
  · rw [query_port_rejected none env m hp]
  · by_cases hl : m._sending_query = true
    · rw [query_pulse_collapsed env m (by omega) hl]
    · rw [query_sent none env m (by omega) (fun h => hl h.1)]
      cases env.sendto_ok <;> simp

theorem query_keeps_server_port (callback : Option Callback) (env : QueryEnv)
    (m : SmClusterHbsInfoMsg) :
    (cluster_hbs_info_query callback env m).2.server_port = m.server_port := by
  by_cases hp : atoi m.server_port < 0
  · rw [query_port_rejected callback env m hp]
  · by_cases hgo : m._sending_query = true ∧ callback = none
    · obtain ⟨hl, hc⟩ := hgo
      subst hc
      rw [query_pulse_collapsed env m (by omega) hl]
    · rw [query_sent callback env m (by omega) hgo]
      cases env.sendto_ok <;> rfl

theorem get_controller_index_keeps_latch (K : SmLimits) (gethostname : Option (List Char))
    (m : SmClusterHbsInfoMsg) :
    (get_controller_index K gethostname m).2._sending_query = m._sending_query := by
  unfold get_controller_index
  cases sm_node_utils_get_hostname K gethostname with
  | none => rfl
  | some host_name =>
    simp only []
    split_ifs <;> rfl

theorem open_socket_keeps_latch (env : SocketEnv) (m : SmClusterHbsInfoMsg) :
    (open_socket env m).2._sending_query = m._sending_query := by
  unfold open_socket
  simp only []
  split_ifs <;> rfl

theorem initialize_keeps_latch (K : SmLimits) (env : InitEnv) (m : SmClusterHbsInfoMsg) :
    ( SmClusterHbsInfoMsg_initialize K env m).2._sending_query = m._sending_query := by
  unfold SmClusterHbsInfoMsg_initialize
  by_cases hm : env.mutex_result ≠ SmErrorT.SM_OKAY
  · simp [hm]
  · simp only [hm, if_false]
    have hg := get_controller_index_keeps_latch K env.hostname m
    rcases hgi : get_controller_index K env.hostname m with ⟨e, m1⟩
    rw [hgi] at hg
    simp only at hg
    cases e with
    | SM_FAILED => exact hg
    | SM_OKAY =>
      simp only []
      cases env.cfg_server_port with
      | none => exact hg
      | some v =>
        simp only []
        split_ifs
        · exact hg
        · cases env.cfg_client_port with
          | none => exact hg
          | some w =>
            simp only []
            split_ifs
            · exact hg
            · have ho := open_socket_keeps_latch env.socket_env
                { m1 with server_port := v, client_port := w }
              rcases hos : open_socket env.socket_env
                { m1 with server_port := v, client_port := w } with ⟨e2, m2⟩
              rw [hos] at ho
              simp only at ho
              cases e2 with
              | SM_FAILED => exact ho.trans hg
              | SM_OKAY =>
                simp only []
                split_ifs <;> exact ho.trans hg

theorem reachable_latch_after_port_check (K : SmLimits) (L : HbsLayout)
    (m : SmClusterHbsInfoMsg) (hr : Reachable K L m) (hlatch : m._sending_query = true) :
    0 ≤ atoi m.server_port := by
  induction hr with
  | start => exact absurd hlatch (by decide)
  | initialized env =>
    rw [initialize_keeps_latch] at hlatch
    exact absurd hlatch (by decide)
  | query callback env m _ ih =>
    rw [query_keeps_server_port]
    by_cases hp : atoi m.server_port < 0
    · rw [query_port_rejected callback env m hp] at hlatch
      exact ih hlatch
    · omega
  | in_flight m _ hport _ => exact hport
  | in_flight_sent reqid m _ _ ih => exact ih hlatch
  | in_flight_queued cb m _ _ ih => exact ih hlatch
  | received d m _ ih => exact ih hlatch

/-- C12: in every state the members can be in, an alive pulse made while the latch is set
returns true, makes no `sendto` call and leaves the callback queue as it was; and an
alive pulse never changes the callback queue, whatever the state and the outcome of the
send. -/
theorem pulse_while_sending (K : SmLimits) (L : HbsLayout) (env : QueryEnv)
    (m : SmClusterHbsInfoMsg) (hr : Reachable K L m) (hlatch : m._sending_query = true) :
    (send_alive_pulse env m).1 = true ∧
    (send_alive_pulse env m).2.sendto_calls = m.sendto_calls ∧
    (send_alive_pulse env m).2._callbacks = m._callbacks ∧
    ∀ (env1 : QueryEnv) (m1 : SmClusterHbsInfoMsg),
      (send_alive_pulse env1 m1).2._callbacks = m1._callbacks := by
  have hport := reachable_latch_after_port_check K L m hr hlatch
  have hres := pulse_collapsed_result env m hport hlatch
  exact ⟨hres.1, hres.2.1, hres.2.2, pulse_keeps_queue⟩

/-- C12 witness: a data request with callback 7 is in flight after one was completed with
callback 1; an alive pulse made then returns true, sends nothing and leaves the queue. -/
theorem pulse_while_sending_witness :
    (Reachable sample_limits sample_layout
        { (cluster_hbs_info_query (some 1) sending_env SmClusterHbsInfoMsg.start).2 with
          _sending_query := true } ∧
      ({ (cluster_hbs_info_query (some 1) sending_env SmClusterHbsInfoMsg.start).2 with
          _sending_query := true } : SmClusterHbsInfoMsg)._sending_query = true) ∧
    (send_alive_pulse sending_env
        { (cluster_hbs_info_query (some 1) sending_env SmClusterHbsInfoMsg.start).2 with
          _sending_query := true }).1 = true ∧
    (send_alive_pulse sending_env
        { (cluster_hbs_info_query (some 1) sending_env SmClusterHbsInfoMsg.start).2 with
          _sending_query := true }).2.sendto_calls = [4465] ∧
    (send_alive_pulse sending_env
        { (cluster_hbs_info_query (some 1) sending_env SmClusterHbsInfoMsg.start).2 with
          _sending_query := true }).2._callbacks = [1] :=
  ⟨⟨Reachable.in_flight _
      (Reachable.query (some 1) sending_env _ Reachable.start) (by decide), rfl⟩,
   (pulse_while_sending sample_limits sample_layout sending_env _
      (Reachable.in_flight _
        (Reachable.query (some 1) sending_env _ Reachable.start) (by decide)) rfl).1,
   by decide, by decide⟩

/-- C13: for a data request with a server port that passes the port check, with the latch
set or clear on entry: when `sendto` succeeds the call returns true and the callback is
appended at the tail of the queue, the entries before it unchanged; when `sendto` fails
the call returns false and the queue is unchanged. -/
theorem data_request_enqueues_on_success (cb : Callback) (env : QueryEnv)
    (m : SmClusterHbsInfoMsg) (hport : 0 ≤ atoi m.server_port) :
    (env.sendto_ok = true →
      (cluster_hbs_info_query (some cb) env m).1 = true ∧
      (cluster_hbs_info_query (some cb) env m).2._callbacks = m._callbacks ++ [cb]) ∧
    (env.sendto_ok = false →
      (cluster_hbs_info_query (some cb) env m).1 = false ∧
      (cluster_hbs_info_query (some cb) env m).2._callbacks = m._callbacks) := by
  rw [query_sent (some cb) env m hport (fun h => by simp at h)]
  constructor
  · intro hok; rw [hok]; exact ⟨rfl, rfl⟩
  · intro hfail; rw [hfail]; exact ⟨rfl, rfl⟩

/-- C13 witness: callback 7 requested with callback 1 already queued, once with a
successful send and the latch set on entry, once with a failing send. -/
theorem data_request_enqueues_on_success_witness :
    0 ≤ atoi one_queued_members.server_port ∧
    (cluster_hbs_info_query (some 7) sending_env
      { one_queued_members with _sending_query := true }).2._callbacks = [1, 7] ∧
    (cluster_hbs_info_query (some 7) failing_env one_queued_members).1 = false ∧
    (cluster_hbs_info_query (some 7) failing_env one_queued_members).2._callbacks = [1] :=
  ⟨by decide,
   ((data_request_enqueues_on_success 7 sending_env
      { one_queued_members with _sending_query := true } (by decide)).1 rfl).2,
   ((data_request_enqueues_on_success 7 failing_env one_queued_members (by decide)).2 rfl).1,
   ((data_request_enqueues_on_success 7 failing_env one_queued_members (by decide)).2 rfl).2⟩

/-- C14: a call that reaches `sendto` sends the request id chosen by `request_id`; it is 0
for an alive pulse, 1 for a data request whose clock read fails, and for a data request
with the 16-bit clock sample `v` it is `v mod 0xFFFE + 1`, which lies in 1 .. 0xFFFE and
is never 0. -/
theorem request_id_of_query (callback : Option Callback) (env : QueryEnv)
    (m : SmClusterHbsInfoMsg) (hport : 0 ≤ atoi m.server_port)
    (hgo : ¬ (m._sending_query = true ∧ callback = none)) :
    (cluster_hbs_info_query callback env m).2.sendto_calls =
      m.sendto_calls ++ [request_id callback.isNone env.clock] ∧
    (callback = none → request_id callback.isNone env.clock = 0) ∧
    (callback ≠ none → env.clock = none → request_id callback.isNone env.clock = 1) ∧
    (∀ v, callback ≠ none → env.clock = some v → v < 65536 →
      request_id callback.isNone env.clock = v % 0xFFFE + 1 ∧
      1 ≤ request_id callback.isNone env.clock ∧
      request_id callback.isNone env.clock ≤ 0xFFFE ∧
      request_id callback.isNone env.clock ≠ 0) := by
  refine ⟨?_, ?_, ?_, ?_⟩
  · rw [query_sent callback env m hport hgo]
    cases env.sendto_ok <;> rfl
  · intro hcb; subst hcb; rfl
  · intro hcb hclock
    cases callback with
    | none => exact absurd rfl hcb
    | some cb => simp [request_id, hclock]
  · intro v hcb hclock hv
    cases callback with
    | none => exact absurd rfl hcb
    | some cb =>
      have hid : request_id (some cb).isNone env.clock = (v % 0xFFFE + 1) % 65536 := by
        simp [request_id, hclock]
      rw [hid]
      omega

/-- C14 witness: a data request at process start with clock sample 4464 sends request id
4465, and an alive pulse sends request id 0. -/
theorem request_id_of_query_witness :
    (0 ≤ atoi SmClusterHbsInfoMsg.start.server_port ∧
      ¬ (SmClusterHbsInfoMsg.start._sending_query = true ∧ (some 7 : Option Callback) = none)) ∧
    (cluster_hbs_info_query (some 7) sending_env SmClusterHbsInfoMsg.start).2.sendto_calls =
      [] ++ [request_id (some 7 : Option Callback).isNone sending_env.clock] ∧
    request_id (some 7 : Option Callback).isNone sending_env.clock = 4465 ∧
    (cluster_hbs_info_query none sending_env SmClusterHbsInfoMsg.start).2.sendto_calls = [0] :=
  ⟨by decide,
   (request_id_of_query (some 7) sending_env SmClusterHbsInfoMsg.start
      (by decide) (by decide)).1,
   by decide, by decide⟩

/-! ## Flags of the reduced state: lemmas -/

theorem foldl_overwrite {α β : Type} (f : α → β) (l : List α) (init : β) :
    l.foldl (fun _ a => f a) init =
      match l.getLast? with
      | some a => f a
      | none => init := by
  induction l generalizing init with
  | nil => rfl
  | cons x xs ih =>
    rw [List.foldl_cons, ih]
    cases xs with
    | nil => rfl
    | cons y ys =>
      rw [List.getLast?_cons_cons]
      cases h : (y :: ys).getLast? with
      | none => simp at h
      | some a => rfl

theorem process_history_flags (L : HbsLayout) (history : mtce_hbs_cluster_history_type)
    (state : SmClusterHbsStateT) (c : Nat) (hv : history_valid L history)
    (hlen : state.controllers.length = max_controllers) :
    ((_process_cluster_hbs_history L history state).2.ctrl c).flags =
      if history.controller = c then record_flags history else (state.ctrl c).flags := by
  obtain ⟨h1, h2, h3, h4⟩ := hv
  have n1 : ¬ history.controller ≥ max_controllers := by omega
  have n2 : ¬ L.MTCE_HBS_NETWORKS ≤ history.network := by omega
  have n3 : ¬ L.MTCE_HBS_HISTORY_ENTRIES < history.entries := by omega
  have n4 : ¬ L.MTCE_HBS_HISTORY_ENTRIES < history.oldest_entry_index := by omega
  have hi : history.controller < state.controllers.length := by omega
  unfold _process_cluster_hbs_history
  simp only [n1, n2, n3, n4, if_false]
  rw [ctrl_set _ _ _ _ hi]
  by_cases hc : history.controller = c
  · subst hc
    simp only [if_true, record_flags, SmClusterHbsInfoT.flags]
    split_ifs <;> rfl
  · simp [hc]

theorem process_histories_flags (L : HbsLayout) (hs : List mtce_hbs_cluster_history_type)
    (state : SmClusterHbsStateT) (c : Nat) (hv : ∀ h, h ∈ hs → history_valid L h)
    (hlen : state.controllers.length = max_controllers) :
    ∃ state1, process_histories L hs state = some state1 ∧
      (state1.ctrl c).flags =
        (hs.filter (fun h => decide (h.controller = c))).foldl
          (fun _ h => record_flags h) (state.ctrl c).flags := by
  induction hs generalizing state with
  | nil => exact ⟨state, rfl, rfl⟩
  | cons h rest ih =>
    have hvh := hv h (List.mem_cons_self _ _)
    obtain ⟨hflag, hlen1, _⟩ := process_history_counts L h state c hvh hlen
    have hfl := process_history_flags L h state c hvh hlen
    obtain ⟨state2, hrun, hfold⟩ :=
      ih (_process_cluster_hbs_history L h state).2
        (fun x hx => hv x (List.mem_cons_of_mem _ hx)) hlen1
    refine ⟨state2, ?_, ?_⟩
    · rw [← hrun]
      simp only [process_histories]
      rcases hp : _process_cluster_hbs_history L h state with ⟨flag, st⟩
      rw [hp] at hflag
      simp only at hflag
      subst hflag
      rfl
    · rw [hfold, hfl]
      by_cases hc : h.controller = c
      · simp [List.filter_cons, hc]
      · simp [List.filter_cons, hc]

/-- C15: for a valid record with at least one entry, the index of the entry read as
current is `(oldest_entry_index + entries - 1) mod MTCE_HBS_HISTORY_ENTRIES`, it lies
inside the circular array, and the counts of the record's controller are compared with
and taken from the entry in that slot. -/
theorem newest_entry_is_last_written (L : HbsLayout) (history : mtce_hbs_cluster_history_type)
    (state : SmClusterHbsStateT) (hv : history_valid L history) (he : 1 ≤ history.entries)
    (hlen : state.controllers.length = max_controllers) :
    newest_entry_index L history =
      (((history.oldest_entry_index + history.entries - 1) % L.MTCE_HBS_HISTORY_ENTRIES : Nat) :
        Int) ∧
    (history.oldest_entry_index + history.entries - 1) % L.MTCE_HBS_HISTORY_ENTRIES <
      L.MTCE_HBS_HISTORY_ENTRIES ∧
    ((_process_cluster_hbs_history L history state).2.ctrl history.controller).counts =
      fold_entry (state.ctrl history.controller).counts
        (history.entry
          (((history.oldest_entry_index + history.entries - 1) % L.MTCE_HBS_HISTORY_ENTRIES :
            Nat) : Int)) := by
  have hcap : 0 < L.MTCE_HBS_HISTORY_ENTRIES := by
    have := hv.2.2.1
    omega
  have hidx := newest_entry_index_in_range L history hcap (by omega)
  refine ⟨hidx.2.2, Nat.mod_lt _ hcap, ?_⟩
  have hc := (process_history_counts L history state history.controller hv hlen).2.2
  rw [hc, if_pos rfl, entry_read, hidx.2.2]

/-- C15 witness: with capacity 15, `entries = 3` and oldest index 14 the entry read is
the one in slot 1. -/
theorem newest_entry_is_last_written_witness :
    (history_valid capacity15_layout wrapping_history ∧ 1 ≤ wrapping_history.entries) ∧
    newest_entry_index capacity15_layout wrapping_history = 1 ∧
    newest_entry_index capacity15_layout wrapping_history =
      (((wrapping_history.oldest_entry_index + wrapping_history.entries - 1) %
        capacity15_layout.MTCE_HBS_HISTORY_ENTRIES : Nat) : Int) ∧
    ((_process_cluster_hbs_history capacity15_layout wrapping_history
        SmClusterHbsStateT.fresh).2.ctrl 0).counts = (9, 6) :=
  ⟨by unfold history_valid; decide, by decide,
   (newest_entry_is_last_written capacity15_layout wrapping_history SmClusterHbsStateT.fresh
      (by unfold history_valid; decide) (by decide) rfl).1,
   by decide⟩

/-- C16: for a message whose records are all valid and every controller `c`, the reduced
state has for `c` the `storage0_responding` flag of the last record for `c`, and
`sm_heartbeat_fail` true exactly when that record's `sm_heartbeat_fail` is 1; a
controller without a record has both flags false. -/
theorem reduction_takes_last_flags (L : HbsLayout) (d : Datagram) (c : Nat)
    (hsize : passes_size_checks L d)
    (hvalid : ∀ i, i < d.msg.histories → history_valid L (d.msg.history i)) :
    ∃ S, reduce_msg L d = some S ∧
      (∀ history, last_record_of c (declared_histories d.msg) = some history →
        (S.ctrl c).storage0_responding = history.storage0_responding ∧
        ((S.ctrl c).sm_heartbeat_fail = true ↔ history.sm_heartbeat_fail = 1)) ∧
      (last_record_of c (declared_histories d.msg) = none →
        (S.ctrl c).storage0_responding = false ∧ (S.ctrl c).sm_heartbeat_fail = false) := by
  obtain ⟨state1, hrun, hflags⟩ :=
    process_histories_flags L (declared_histories d.msg) SmClusterHbsStateT.fresh c
      ((declared_histories_mem d.msg (history_valid L)).mpr hvalid) rfl
  have hfresh : (SmClusterHbsStateT.fresh.ctrl c).flags = (false, false) := by
    unfold SmClusterHbsStateT.fresh SmClusterHbsStateT.ctrl max_controllers
    rcases c with _ | _ | c <;> rfl
  rw [hfresh, foldl_overwrite] at hflags
  refine ⟨{ state1 with last_update := d.tv_sec,
                        storage0_enabled := decide (d.msg.storage0_enabled ≠ 0) }, ?_, ?_, ?_⟩
  · rw [reduce_msg_eq_map L d hsize, hrun]; rfl
  · intro history hlast
    unfold last_record_of at hlast
    rw [hlast] at hflags
    have h1 : (state1.ctrl c).storage0_responding = history.storage0_responding :=
      congrArg Prod.fst hflags
    have h2 : (state1.ctrl c).sm_heartbeat_fail = decide (history.sm_heartbeat_fail = 1) :=
      congrArg Prod.snd hflags
    refine ⟨h1, ?_⟩
    show (state1.ctrl c).sm_heartbeat_fail = true ↔ _
    rw [h2]; simp
  · intro hlast
    unfold last_record_of at hlast
    rw [hlast] at hflags
    exact ⟨congrArg Prod.fst hflags, congrArg Prod.snd hflags⟩

/-- C16 witness: two records for controller 0, the first with both flags raised and the
second with both down, give controller 0 both flags down; controller 1 has no record. -/
theorem reduction_takes_last_flags_witness :
    (passes_size_checks sample_layout two_flag_datagram ∧
      ∀ i, i < two_flag_datagram.msg.histories →
        history_valid sample_layout (two_flag_datagram.msg.history i)) ∧
    (reduce_msg sample_layout two_flag_datagram).map (fun S => (S.ctrl 0).flags) =
      some (false, false) ∧
    (_process_cluster_hbs_history sample_layout (flag_history true 1)
      SmClusterHbsStateT.fresh).2.ctrl 0 =
        { storage0_responding := true, sm_heartbeat_fail := true,
          number_of_node_reachable := 0, number_of_node_enabled := 0 } ∧
    ∃ S, reduce_msg sample_layout two_flag_datagram = some S ∧
      (∀ history, last_record_of 0 (declared_histories two_flag_datagram.msg) = some history →
        (S.ctrl 0).storage0_responding = history.storage0_responding ∧
        ((S.ctrl 0).sm_heartbeat_fail = true ↔ history.sm_heartbeat_fail = 1)) ∧
      (last_record_of 0 (declared_histories two_flag_datagram.msg) = none →
        (S.ctrl 0).storage0_responding = false ∧ (S.ctrl 0).sm_heartbeat_fail = false) :=
  ⟨⟨by unfold passes_size_checks; decide, by unfold history_valid; decide⟩,
   by decide, by decide,
   reduction_takes_last_flags sample_layout two_flag_datagram 0
     (by unfold passes_size_checks; decide) (by unfold history_valid; decide)⟩

/-- C17: a message of exactly the header size that declares no record is accepted: it
reduces to the state with all controller entries zero and the storage-0 flag of the
header, which replaces current (shifting it to previous) when the two differ and is
dropped when they are equal, and all pending callbacks are invoked. -/
theorem header_only_message_is_accepted (L : HbsLayout) (d : Datagram) (g : HbsGlobals)
    (hlen : d.bytes_read = (L.size_of_msg_header : Int)) (hz : d.msg.histories = 0) :
    reduce_msg L d = some (header_only_state d) ∧
    (∀ i, (header_only_state d).ctrl i = SmClusterHbsInfoT.zero) ∧
    (receive_one L d g).1 = true ∧
    (SmClusterHbsStateT.operator_ne (header_only_state d) g._cluster_hbs_state_current = true →
      (receive_one L d g).2._cluster_hbs_state_previous = g._cluster_hbs_state_current ∧
      (receive_one L d g).2._cluster_hbs_state_current = header_only_state d) ∧
    (SmClusterHbsStateT.operator_eq (header_only_state d) g._cluster_hbs_state_current = true →
      (receive_one L d g).2._cluster_hbs_state_current = g._cluster_hbs_state_current ∧
      (receive_one L d g).2._cluster_hbs_state_previous = g._cluster_hbs_state_previous) ∧
    (receive_one L d g).2.invoked = g.invoked ++ g._callbacks ∧
    (receive_one L d g).2._callbacks = [] := by
  have hsize : passes_size_checks L d := ⟨by omega, fun hpos => by omega⟩
  have hred : reduce_msg L d = some (header_only_state d) := by
    rw [reduce_msg_eq_map L d hsize]
    simp [declared_histories, hz, process_histories, header_only_state,
      SmClusterHbsStateT.fresh]
  have hacc := receive_one_accepted L d g (header_only_state d) hred
  refine ⟨hred, fun i => ?_, hacc.2.2.1, hacc.1, hacc.2.1, hacc.2.2.2.1, hacc.2.2.2.2⟩
  unfold header_only_state SmClusterHbsStateT.ctrl max_controllers
  rcases i with _ | _ | i <;> rfl

/-- C17 witness: the 14 byte message with the storage-0 flag set, received at process
start with two callbacks queued, becomes current and both callbacks are invoked. -/
theorem header_only_message_is_accepted_witness :
    (storage0_datagram.bytes_read = (sample_layout.size_of_msg_header : Int) ∧
      storage0_datagram.msg.histories = 0) ∧
    reduce_msg sample_layout storage0_datagram = some (header_only_state storage0_datagram) ∧
    (receive_one sample_layout storage0_datagram queued_globals).2._cluster_hbs_state_current =
      header_only_state storage0_datagram ∧
    (receive_one sample_layout storage0_datagram queued_globals).2.invoked = [1, 2] :=
  ⟨by decide,
   (header_only_message_is_accepted sample_layout storage0_datagram queued_globals
      (by decide) (by decide)).1,
   ((header_only_message_is_accepted sample_layout storage0_datagram queued_globals
      (by decide) (by decide)).2.2.2.1 (by decide)).2,
   (header_only_message_is_accepted sample_layout storage0_datagram queued_globals
      (by decide) (by decide)).2.2.2.2.2.1⟩

/-! ## Controller identity: lemmas -/

theorem char_toNat_inj (a b : Char) (h : a.toNat = b.toNat) : a = b := by
  apply Char.ext
  apply UInt32.ext
  exact h

theorem strncmp_eq_zero_iff (a b : List Char) (ha : ∀ c, c ∈ a → c.toNat ≠ 0)
    (hb : ∀ c, c ∈ b → c.toNat ≠ 0) :
    strncmp a b (a.length + 1) = 0 ↔ a = b := by
  induction a generalizing b with
  | nil =>
    cases b with
    | nil => simp [strncmp]
    | cons y ys =>
      have hy := hb y (List.mem_cons_self _ _)
      simp only [List.length_nil, strncmp]
      constructor
      · intro h; omega
      · intro h; exact absurd h (by simp)
  | cons x xs ih =>
    cases b with
    | nil =>
      have hx := ha x (List.mem_cons_self _ _)
      simp only [List.length_cons, strncmp]
      constructor
      · intro h; omega
      · intro h; exact absurd h (by simp)
    | cons y ys =>
      simp only [List.length_cons, strncmp]
      by_cases hxy : x = y
      · subst hxy
        simp only [if_true, List.cons.injEq, true_and]
        exact ih ys (fun c hc => ha c (List.mem_cons_of_mem _ hc))
          (fun c hc => hb c (List.mem_cons_of_mem _ hc))
      · simp only [hxy, if_false, List.cons.injEq, false_and, iff_false]
        intro h
        apply hxy
        apply char_toNat_inj
        omega

/-- C18: a host name that can be read (it fits the name buffer and, as a C string, holds
no NUL) gives `SM_OKAY` with this index 0 and peer index 1 when it is exactly the
controller-0 name, and this index 1 and peer index 0 for any other name; when the host
name cannot be read the result is `SM_FAILED` and both indices stay as they were. -/
theorem controller_index_from_hostname (K : SmLimits) (h : List Char)
    (m : SmClusterHbsInfoMsg) (hfit : h.length < K.SM_NODE_NAME_MAX_CHAR)
    (hstr : ∀ c, c ∈ h → c.toNat ≠ 0)
    (hname : ∀ c, c ∈ K.SM_NODE_CONTROLLER_0_NAME → c.toNat ≠ 0) :
    (h = K.SM_NODE_CONTROLLER_0_NAME →
      get_controller_index K (some h) m =
        (SmErrorT.SM_OKAY, { m with this_controller_index := 0, peer_controller_index := 1 })) ∧
    (h ≠ K.SM_NODE_CONTROLLER_0_NAME →
      get_controller_index K (some h) m =
        (SmErrorT.SM_OKAY, { m with this_controller_index := 1, peer_controller_index := 0 })) ∧
    get_controller_index K none m = (SmErrorT.SM_FAILED, m) := by
  have htake : h.take (K.SM_NODE_NAME_MAX_CHAR - 1) = h :=
    List.take_of_length_le (by omega)
  have hcmp := strncmp_eq_zero_iff K.SM_NODE_CONTROLLER_0_NAME h hname hstr
  refine ⟨fun heq => ?_, fun hne => ?_, rfl⟩
  · have h0 : 0 = strncmp K.SM_NODE_CONTROLLER_0_NAME h
        (K.SM_NODE_CONTROLLER_0_NAME.length + 1) := (hcmp.mpr heq.symm).symm
    simp only [get_controller_index, sm_node_utils_get_hostname, htake]
    rw [if_pos h0]
  · have h0 : ¬ 0 = strncmp K.SM_NODE_CONTROLLER_0_NAME h
        (K.SM_NODE_CONTROLLER_0_NAME.length + 1) := fun hz => hne (hcmp.mp hz.symm).symm
    simp only [get_controller_index, sm_node_utils_get_hostname, htake]
    rw [if_neg h0]

/-- C18 witness: the host name `controller-0` gives indices 0 and 1, and the longer name
`controller-01` gives indices 1 and 0. -/
theorem controller_index_from_hostname_witness :
    (longer_hostname.length < sample_limits.SM_NODE_NAME_MAX_CHAR ∧
      (∀ c, c ∈ longer_hostname → c.toNat ≠ 0) ∧
      (∀ c, c ∈ sample_limits.SM_NODE_CONTROLLER_0_NAME → c.toNat ≠ 0) ∧
      longer_hostname ≠ sample_limits.SM_NODE_CONTROLLER_0_NAME) ∧
    (get_controller_index sample_limits (some sample_limits.SM_NODE_CONTROLLER_0_NAME)
        SmClusterHbsInfoMsg.start).2.this_controller_index = 0 ∧
    (get_controller_index sample_limits (some sample_limits.SM_NODE_CONTROLLER_0_NAME)
        SmClusterHbsInfoMsg.start).2.peer_controller_index = 1 ∧
    get_controller_index sample_limits (some longer_hostname) SmClusterHbsInfoMsg.start =
      (SmErrorT.SM_OKAY,
        { SmClusterHbsInfoMsg.start with
          this_controller_index := 1, peer_controller_index := 0 }) :=
  ⟨by decide, by decide, by decide,
   (controller_index_from_hostname sample_limits longer_hostname SmClusterHbsInfoMsg.start
      (by decide) (by decide) (by decide)).2.1 (by decide)⟩

/-! ## The port check: lemmas -/

theorem signed_value_neg_iff (s : List Char) :
    signed_value s < 0 ↔ ∃ c cs, s = c :: cs ∧ c.toNat = 45 ∧ 0 < digits_value cs 0 := by
  cases s with
  | nil => simp [signed_value]
  | cons c cs =>
    simp only [signed_value, List.cons.injEq, exists_and_left]
    by_cases h45 : c.toNat = 45
    · simp only [h45, if_true]
      constructor
      · intro h; exact ⟨c, h45 ▸ ⟨cs, ⟨rfl, rfl⟩, rfl, by omega⟩⟩
      · rintro ⟨c1, cs1, ⟨-, rfl⟩, -, hpos⟩; omega
    · simp only [h45, if_false]
      constructor
      · intro h
        split_ifs at h <;> omega
      · rintro ⟨c1, cs1, ⟨rfl, -⟩, hc, -⟩; exact absurd hc h45

theorem isspace_not_minus (c : Char) (h : isspace c = true) : c.toNat ≠ 45 := by
  unfold isspace at h
  simp only [Bool.or_eq_true, Bool.and_eq_true, decide_eq_true_eq] at h
  omega

theorem decimal_value_neg_iff (s : List Char) :
    decimal_value s < 0 ↔
      ∃ ws c cs, s = ws ++ c :: cs ∧ (∀ x, x ∈ ws → isspace x = true) ∧ c.toNat = 45 ∧
        0 < digits_value cs 0 := by
  induction s with
  | nil => simp [decimal_value]
  | cons x xs ih =>
    by_cases hx : isspace x = true
    · have hstep : decimal_value (x :: xs) = decimal_value xs := by simp [decimal_value, hx]
      rw [hstep, ih]
      constructor
      · rintro ⟨ws, c, cs, rfl, hws, hc, hpos⟩
        refine ⟨x :: ws, c, cs, rfl, ?_, hc, hpos⟩
        intro y hy
        rcases List.mem_cons.mp hy with rfl | hy
        · exact hx
        · exact hws y hy
      · rintro ⟨ws, c, cs, heq, hws, hc, hpos⟩
        cases ws with
        | nil =>
          simp only [List.nil_append, List.cons.injEq] at heq
          exact absurd (heq.1 ▸ hc) (isspace_not_minus x hx)
        | cons w ws1 =>
          simp only [List.cons_append, List.cons.injEq] at heq
          exact ⟨ws1, c, cs, heq.2, fun y hy => hws y (List.mem_cons_of_mem _ hy), hc, hpos⟩
    · have hstep : decimal_value (x :: xs) = signed_value (x :: xs) := by
        simp [decimal_value, hx]
      rw [hstep, signed_value_neg_iff]
      constructor
      · rintro ⟨c, cs, heq, hc, hpos⟩
        exact ⟨[], c, cs, heq, fun y hy => absurd hy (List.not_mem_nil y), hc, hpos⟩
      · rintro ⟨ws, c, cs, heq, hws, hc, hpos⟩
        cases ws with
        | nil => exact ⟨c, cs, heq, hc, hpos⟩
        | cons w ws1 =>
          simp only [List.cons_append, List.cons.injEq] at heq
          exact absurd (heq.1 ▸ hws w (List.mem_cons_self _ _)) hx

theorem atoi_eq_of_fits (s : List Char) (hlo : -2147483648 ≤ decimal_value s)
    (hhi : decimal_value s ≤ 2147483647) : atoi s = decimal_value s := by
  unfold atoi strtol int_of_long
  split_ifs <;> omega

theorem decimal_value_non_numeric (c : Char) (cs : List Char) (hsp : isspace c = false)
    (hd : isdigit c = false) (hminus : c.toNat ≠ 45) (hplus : c.toNat ≠ 43) :
    decimal_value (c :: cs) = 0 := by
  simp [decimal_value, hsp, signed_value, hminus, hplus, digits_value, hd]

theorem open_socket_port_rejected (env : SocketEnv) (m : SmClusterHbsInfoMsg)
    (h : atoi m.server_port < 0) : open_socket env m = (SmErrorT.SM_FAILED, m) := by
  unfold open_socket
  simp [h]

theorem open_socket_good (m : SmClusterHbsInfoMsg) (h : 0 ≤ atoi m.server_port)
    (hc : numeric_service m.client_port = true) :
    open_socket good_socket_env m = (SmErrorT.SM_OKAY, { m with _sock := 5 }) := by
  have hp : ¬ atoi m.server_port < 0 := by omega
  unfold open_socket
  simp [hp, good_socket_env, hc]

theorem get_controller_index_some (K : SmLimits) (h : List Char) (m : SmClusterHbsInfoMsg) :
    ∃ a b, get_controller_index K (some h) m =
      (SmErrorT.SM_OKAY, { m with this_controller_index := a, peer_controller_index := b }) := by
  unfold get_controller_index sm_node_utils_get_hostname
  simp only []
  split_ifs
  · exact ⟨0, 1, rfl⟩
  · exact ⟨1, 0, rfl⟩

theorem initialize_server_port_rejected (K : SmLimits) (env : InitEnv)
    (m : SmClusterHbsInfoMsg) (s : List Char) (hcfg : env.cfg_server_port = some s)
    (hneg : atoi s < 0) :
    ( SmClusterHbsInfoMsg_initialize K env m).1 = SmErrorT.SM_FAILED := by
  unfold SmClusterHbsInfoMsg_initialize
  by_cases hm : env.mutex_result ≠ SmErrorT.SM_OKAY
  · simp [hm]
  · simp only [hm, if_false]
    rcases hg : get_controller_index K env.hostname m with ⟨e, m1⟩
    cases e with
    | SM_FAILED => rfl
    | SM_OKAY => simp [hcfg, hneg]

theorem initialize_client_port_rejected (K : SmLimits) (env : InitEnv)
    (m : SmClusterHbsInfoMsg) (s : List Char) (hcfg : env.cfg_client_port = some s)
    (hneg : atoi s < 0) :
    ( SmClusterHbsInfoMsg_initialize K env m).1 = SmErrorT.SM_FAILED := by
  unfold SmClusterHbsInfoMsg_initialize
  by_cases hm : env.mutex_result ≠ SmErrorT.SM_OKAY
  · simp [hm]
  · simp only [hm, if_false]
    rcases hg : get_controller_index K env.hostname m with ⟨e, m1⟩
    cases e with
    | SM_FAILED => rfl
    | SM_OKAY =>
      cases hsrv : env.cfg_server_port with
      | none => rfl
      | some v =>
        by_cases hv : atoi v < 0
        · simp [hv]
        · simp [hv, hcfg, hneg]

theorem initialize_good_env (server client : List Char) (m : SmClusterHbsInfoMsg)
    (hs : 0 ≤ atoi server) (hc : 0 ≤ atoi client)
    (hrc : numeric_service client = true) :
    ( SmClusterHbsInfoMsg_initialize sample_limits (good_init_env server client) m).1 =
      (if numeric_service server = true then SmErrorT.SM_OKAY else SmErrorT.SM_FAILED) ∧
    ( SmClusterHbsInfoMsg_initialize sample_limits (good_init_env server client) m).2._sock =
      5 := by
  obtain ⟨a, b, hg⟩ := get_controller_index_some sample_limits
    sample_limits.SM_NODE_CONTROLLER_0_NAME m
  have hs1 : ¬ atoi server < 0 := by omega
  have hc1 : ¬ atoi client < 0 := by omega
  unfold SmClusterHbsInfoMsg_initialize
  simp only [good_init_env, ne_eq, not_true_eq_false, if_false, hg, gt_iff_lt, hs1, hc1]
  have hos := open_socket_good
    { m with this_controller_index := a, peer_controller_index := b,
             server_port := server, client_port := client } hs hrc
  rw [hos]
  by_cases hrs : numeric_service server = true
  · simp [set_address, good_socket_env, hrs]
  · simp [set_address, good_socket_env, hrs]

/-- Beyond the range of an `int` the conversion decides the sign: the decimal string
2147483648 gives a negative `int`, and -2147483649 a positive one. -/
theorem atoi_wraps_beyond_int :
    atoi ['2', '1', '4', '7', '4', '8', '3', '6', '4', '8'] = -2147483648 ∧
    atoi ['-', '2', '1', '4', '7', '4', '8', '3', '6', '4', '9'] = 2147483647 := by
  decide

/-- C19 counterexample: the non-numeric string `abc` and the empty string are not refused
by the port check.  With server port `abc` (and client port 2223) `open_socket` returns
`SM_OKAY`; the initialisation gets past both port checks and opens the socket, and fails
only afterwards, when `getaddrinfo` does not resolve `abc` in `set_address`; and at
process start, with the empty server port, `cluster_hbs_info_query` goes on to `sendto`. -/
theorem non_numeric_port_passes_check :
    atoi ['a', 'b', 'c'] = 0 ∧ atoi [] = 0 ∧
    good_socket_env.getaddrinfo ['a', 'b', 'c'] = false ∧
    open_socket good_socket_env abc_port_members =
      (SmErrorT.SM_OKAY, { abc_port_members with _sock := 5 }) ∧
    ( SmClusterHbsInfoMsg_initialize sample_limits (good_init_env ['a', 'b', 'c'] port_2223)
      SmClusterHbsInfoMsg.start).2._sock = 5 ∧
    ( SmClusterHbsInfoMsg_initialize sample_limits (good_init_env ['a', 'b', 'c'] port_2223)
      SmClusterHbsInfoMsg.start).1 = SmErrorT.SM_FAILED ∧
    (cluster_hbs_info_query (some 7) sending_env SmClusterHbsInfoMsg.start).2.sendto_calls =
      [4465] := by
  decide

/-- C19 as amended: the port check of `open_socket`, of the initialisation and of
`cluster_hbs_info_query` fails exactly when the `int` that `atoi` returns for the string
is negative.  For a string whose number fits an `int` that is exactly when the string is,
after optional leading white space, a minus sign followed by digits of non-zero value.
The empty string and a string that starts with a character that is neither white space,
a sign nor a digit give 0 and pass the check: such a server port lets `open_socket`
succeed and `cluster_hbs_info_query` go on to `sendto`, and lets the initialisation open
the socket. -/
theorem port_check_rejects_negative_numbers (s : List Char) :
    (-2147483648 ≤ decimal_value s → decimal_value s ≤ 2147483647 →
      (atoi s < 0 ↔
        ∃ ws c cs, s = ws ++ c :: cs ∧ (∀ x, x ∈ ws → isspace x = true) ∧ c.toNat = 45 ∧
          0 < digits_value cs 0)) ∧
    (s = [] → atoi s = 0) ∧
    (∀ c cs, s = c :: cs → isspace c = false → isdigit c = false → c.toNat ≠ 45 →
      c.toNat ≠ 43 → atoi s = 0) ∧
    (∀ (env : SocketEnv) (m : SmClusterHbsInfoMsg), m.server_port = s → atoi s < 0 →
      open_socket env m = (SmErrorT.SM_FAILED, m)) ∧
    (∀ (m : SmClusterHbsInfoMsg), m.server_port = s → numeric_service m.client_port = true →
      ((open_socket good_socket_env m).1 = SmErrorT.SM_FAILED ↔ atoi s < 0)) ∧
    (∀ (K : SmLimits) (env : InitEnv) (m : SmClusterHbsInfoMsg),
      env.cfg_server_port = some s ∨ env.cfg_client_port = some s → atoi s < 0 →
      ( SmClusterHbsInfoMsg_initialize K env m).1 = SmErrorT.SM_FAILED) ∧
    (∀ (client : List Char) (m : SmClusterHbsInfoMsg), 0 ≤ atoi client →
      numeric_service client = true → 0 ≤ atoi s →
      ( SmClusterHbsInfoMsg_initialize sample_limits (good_init_env s client) m).2._sock = 5) ∧
    (∀ (client : List Char) (m : SmClusterHbsInfoMsg), 0 ≤ atoi client →
      numeric_service client = true → numeric_service s = true →
      (( SmClusterHbsInfoMsg_initialize sample_limits (good_init_env s client) m).1 =
        SmErrorT.SM_FAILED ↔ atoi s < 0)) ∧
    (∀ (callback : Option Callback) (env : QueryEnv) (m : SmClusterHbsInfoMsg),
      m.server_port = s → atoi s < 0 → cluster_hbs_info_query callback env m = (false, m)) ∧
    (∀ (callback : Option Callback) (env : QueryEnv) (m : SmClusterHbsInfoMsg),
      m.server_port = s → 0 ≤ atoi s → ¬ (m._sending_query = true ∧ callback = none) →
      (cluster_hbs_info_query callback env m).2.sendto_calls =
        m.sendto_calls ++ [request_id callback.isNone env.clock]) := by
  refine ⟨?_, ?_, ?_, ?_, ?_, ?_, ?_, ?_, ?_, ?_⟩
  · intro hlo hhi
    rw [atoi_eq_of_fits s hlo hhi]
    exact decimal_value_neg_iff s
  · intro hs; subst hs; decide
  · intro c cs hs hsp hd hminus hplus
    subst hs
    have hv := decimal_value_non_numeric c cs hsp hd hminus hplus
    rw [atoi_eq_of_fits _ (by omega) (by omega), hv]
  · intro env m hm hneg
    subst hm
    exact open_socket_port_rejected env m hneg
  · intro m hm hcl
    subst hm
    constructor
    · intro hfail
      by_contra hneg
      rw [open_socket_good m (by omega) hcl] at hfail
      exact absurd hfail (by simp)
    · intro hneg
      rw [open_socket_port_rejected good_socket_env m hneg]
  · intro K env m hcfg hneg
    rcases hcfg with hcfg | hcfg
    · exact initialize_server_port_rejected K env m s hcfg hneg
    · exact initialize_client_port_rejected K env m s hcfg hneg
  · intro client m hc hrc hs
    exact (initialize_good_env s client m hs hc hrc).2
  · intro client m hc hrc hrs
    constructor
    · intro hfail
      by_contra hneg
      rw [(initialize_good_env s client m (by omega) hc hrc).1, if_pos hrs] at hfail
      exact absurd hfail (by simp)
    · intro hneg
      exact initialize_server_port_rejected sample_limits (good_init_env s client) m s rfl hneg
  · intro callback env m hm hneg
    subst hm
    exact query_port_rejected callback env m hneg
  · intro callback env m hm hport hgo
    subst hm
    rw [query_sent callback env m hport hgo]
    cases env.sendto_ok <;> rfl

/-- C19 witness: the string -1 fits an `int` and has the refused shape, so `open_socket`
fails on it; the port number 2223 passes the check of `open_socket`. -/
theorem port_check_rejects_negative_numbers_witness :
    (-2147483648 ≤ decimal_value ['-', '1'] ∧ decimal_value ['-', '1'] ≤ 2147483647 ∧
      atoi ['-', '1'] < 0) ∧
    (atoi ['-', '1'] < 0 ↔
      ∃ ws c cs, ['-', '1'] = ws ++ c :: cs ∧ (∀ x, x ∈ ws → isspace x = true) ∧
        c.toNat = 45 ∧ 0 < digits_value cs 0) ∧
    open_socket good_socket_env negative_port_members =
      (SmErrorT.SM_FAILED, negative_port_members) ∧
    ((open_socket good_socket_env
        { SmClusterHbsInfoMsg.start with server_port := port_2223, client_port := port_2223 }).1 =
      SmErrorT.SM_FAILED ↔ atoi port_2223 < 0) ∧
    0 ≤ atoi port_2223 :=
  ⟨by decide,
   (port_check_rejects_negative_numbers ['-', '1']).1 (by decide) (by decide),
   (port_check_rejects_negative_numbers ['-', '1']).2.2.2.1 good_socket_env
      negative_port_members rfl (by decide),
   (port_check_rejects_negative_numbers port_2223).2.2.2.2.1
      { SmClusterHbsInfoMsg.start with server_port := port_2223, client_port := port_2223 }
      rfl (by decide),
   by decide⟩

/-! ## The pair of states along a run: lemmas -/

theorem info_operator_eq_symm (a b : SmClusterHbsInfoT) :
    SmClusterHbsInfoT.operator_eq a b = SmClusterHbsInfoT.operator_eq b a := by
  rw [Bool.eq_iff_iff, info_operator_eq_iff, info_operator_eq_iff]
  constructor <;> rintro ⟨h1, h2, h3⟩ <;> exact ⟨h1.symm, h2.symm, h3.symm⟩

theorem state_operator_eq_symm (a b : SmClusterHbsStateT) :
    SmClusterHbsStateT.operator_eq a b = SmClusterHbsStateT.operator_eq b a := by
  rw [Bool.eq_iff_iff, state_operator_eq_iff, state_operator_eq_iff]
  constructor <;> rintro ⟨h1, h2⟩ <;>
    exact ⟨h1.symm, fun i hi => by rw [info_operator_eq_symm]; exact h2 i hi⟩

theorem receive_one_keeps_invariant (L : HbsLayout) (d : Datagram) (g : HbsGlobals)
    (h : previous_differs_or_initial g) :
    previous_differs_or_initial (receive_one L d g).2 := by
  cases hr : reduce_msg L d with
  | none => rw [receive_one_none L d g hr]; exact h
  | some S =>
    have hacc := receive_one_accepted L d g S hr
    by_cases hne : SmClusterHbsStateT.operator_ne S g._cluster_hbs_state_current = true
    · obtain ⟨hprev, hcur⟩ := hacc.1 hne
      right
      rw [hprev, hcur, state_operator_eq_symm]
      simpa [SmClusterHbsStateT.operator_ne] using hne
    · have heq : SmClusterHbsStateT.operator_eq S g._cluster_hbs_state_current = true := by
        simpa [SmClusterHbsStateT.operator_ne] using hne
      obtain ⟨hcur, hprev⟩ := hacc.2.1 heq
      unfold previous_differs_or_initial
      rw [hcur, hprev]
      exact h

theorem handler_keeps_invariant (L : HbsLayout) (ds : List Datagram) (g : HbsGlobals)
    (h : previous_differs_or_initial g) :
    previous_differs_or_initial (_cluster_hbs_info_msg_received L ds g) := by
  induction ds generalizing g with
  | nil => exact h
  | cons d rest ih =>
    have hstep := receive_one_keeps_invariant L d g h
    simp only [_cluster_hbs_info_msg_received]
    rcases hp : receive_one L d g with ⟨flag, g1⟩
    rw [hp] at hstep
    cases flag with
    | false => exact hstep
    | true => exact ih g1 hstep

theorem handle_wakeups_keeps_invariant (L : HbsLayout) (wakeups : List (List Datagram))
    (g : HbsGlobals) (h : previous_differs_or_initial g) :
    previous_differs_or_initial (handle_wakeups L wakeups g) := by
  unfold handle_wakeups
  induction wakeups generalizing g with
  | nil => exact h
  | cons ds rest ih =>
    rw [List.foldl_cons]
    exact ih _ (handler_keeps_invariant L ds g h)

theorem receive_each_keeps_invariant (L : HbsLayout) (ds : List Datagram) (g : HbsGlobals)
    (h : previous_differs_or_initial g) :
    previous_differs_or_initial (receive_each L ds g) := by
  unfold receive_each
  induction ds generalizing g with
  | nil => exact h
  | cons d rest ih =>
    rw [List.foldl_cons]
    exact ih _ (receive_one_keeps_invariant L d g h)

/-- C21: from the fresh current and previous of process start (with any callbacks
queued), after any sequence of wake-ups of the receive handler on any datagrams, and
after any sequence of datagrams each taken through one pass of the handler, either
current and previous are both still the fresh state or previous does not compare equal
to current. -/
theorem previous_never_equals_current (L : HbsLayout) (queue log : List Callback)
    (wakeups : List (List Datagram)) (ds : List Datagram) :
    previous_differs_or_initial
      (handle_wakeups L wakeups { HbsGlobals.initial with _callbacks := queue, invoked := log }) ∧
    previous_differs_or_initial
      (receive_each L ds { HbsGlobals.initial with _callbacks := queue, invoked := log }) :=
  ⟨handle_wakeups_keeps_invariant L wakeups _ (Or.inl ⟨rfl, rfl⟩),
   receive_each_keeps_invariant L ds _ (Or.inl ⟨rfl, rfl⟩)⟩

/-- C21 witness: after a wake-up that receives the storage-0 message, a short message and
(in a second wake-up) the storage-0 message again, previous is the fresh state and
compares unequal to current; after a wake-up with only the short message both states are
still fresh. -/
theorem previous_never_equals_current_witness :
    previous_differs_or_initial
      (handle_wakeups sample_layout [[storage0_datagram, short_datagram], [storage0_datagram]]
        { HbsGlobals.initial with _callbacks := [1], invoked := [] }) ∧
    SmClusterHbsStateT.operator_eq
      (handle_wakeups sample_layout [[storage0_datagram, short_datagram], [storage0_datagram]]
        { HbsGlobals.initial with _callbacks := [1], invoked := [] })._cluster_hbs_state_previous
      (handle_wakeups sample_layout [[storage0_datagram, short_datagram], [storage0_datagram]]
        { HbsGlobals.initial with _callbacks := [1], invoked := [] })._cluster_hbs_state_current =
        false ∧
    (handle_wakeups sample_layout [[short_datagram]]
        HbsGlobals.initial)._cluster_hbs_state_current = SmClusterHbsStateT.fresh :=
  ⟨(previous_never_equals_current sample_layout [1] []
      [[storage0_datagram, short_datagram], [storage0_datagram]] []).1,
   by decide, by decide⟩

end SmClusterHbs
